import Mathlib

/-!
# Storj Terraform provider: resource reconciliation

A shallow embedding of the resource functions of `src/storj` (`createAccessGrant`,
`createEdgeCredentials`, `readObjects`, `updateObject`, `createObject`) together with the
library primitives they call (`sha256.Sum256`, `base64.StdEncoding.EncodeToString`,
`fmt.Sprintf`, `schema.ResourceData`), followed by the properties established about them.

Go strings are embedded as Lean strings; `[]byte(s)` is the UTF-8 encoding of `s`.
Bytes are natural numbers below 256 and 32-bit words are natural numbers reduced
modulo `2 ^ 32`.  A Go panic is an explicit exit of the embedded function.
-/

namespace Storj

/-! ## Library primitives -/

/-- UTF-8 encoding of one code point, as the bytes of a Go string holding it. -/
def utf8EncodeNat (n : Nat) : List Nat :=
  if n < 0x80 then [n]
  else if n < 0x800 then [0xc0 + n / 64, 0x80 + n % 64]
  else if n < 0x10000 then [0xe0 + n / 4096, 0x80 + n / 64 % 64, 0x80 + n % 64]
  else [0xf0 + n / 262144, 0x80 + n / 4096 % 64, 0x80 + n / 64 % 64, 0x80 + n % 64]

/-- Go `[]byte(s)`: the bytes of a string. -/
def bytesOf (s : String) : List Nat :=
  s.data.flatMap fun c => utf8EncodeNat c.toNat

namespace Sha256

/-- Round constants of SHA-256. -/
def K : List Nat :=
  [0x428a2f98, 0x71374491, 0xb5c0fbcf, 0xe9b5dba5, 0x3956c25b, 0x59f111f1, 0x923f82a4, 0xab1c5ed5,
   0xd807aa98, 0x12835b01, 0x243185be, 0x550c7dc3, 0x72be5d74, 0x80deb1fe, 0x9bdc06a7, 0xc19bf174,
   0xe49b69c1, 0xefbe4786, 0x0fc19dc6, 0x240ca1cc, 0x2de92c6f, 0x4a7484aa, 0x5cb0a9dc, 0x76f988da,
   0x983e5152, 0xa831c66d, 0xb00327c8, 0xbf597fc7, 0xc6e00bf3, 0xd5a79147, 0x06ca6351, 0x14292967,
   0x27b70a85, 0x2e1b2138, 0x4d2c6dfc, 0x53380d13, 0x650a7354, 0x766a0abb, 0x81c2c92e, 0x92722c85,
   0xa2bfe8a1, 0xa81a664b, 0xc24b8b70, 0xc76c51a3, 0xd192e819, 0xd6990624, 0xf40e3585, 0x106aa070,
   0x19a4c116, 0x1e376c08, 0x2748774c, 0x34b0bcb5, 0x391c0cb3, 0x4ed8aa4a, 0x5b9cca4f, 0x682e6ff3,
   0x748f82ee, 0x78a5636f, 0x84c87814, 0x8cc70208, 0x90befffa, 0xa4506ceb, 0xbef9a3f7, 0xc67178f2]

/-- Truncation to an unsigned 32-bit word. -/
def w32 (x : Nat) : Nat := x % 2 ^ 32

/-- Rotate a 32-bit word right by `n` bits. -/
def rotr (x n : Nat) : Nat := w32 ((x >>> n) ||| (x <<< (32 - n)))

/-- The eight working words of the hash. -/
structure State where
  a : Nat
  b : Nat
  c : Nat
  d : Nat
  e : Nat
  f : Nat
  g : Nat
  h : Nat

/-- Initial hash value. -/
def init : State :=
  ⟨0x6a09e667, 0xbb67ae85, 0x3c6ef372, 0xa54ff53a, 0x510e527f, 0x9b05688c, 0x1f83d9ab, 0x5be0cd19⟩

/-- Message padding: a `0x80` byte, zeros up to 56 modulo 64, then the bit length
on eight big-endian bytes. -/
def pad (msg : List Nat) : List Nat :=
  let bits := 8 * msg.length
  msg ++ [0x80] ++ List.replicate ((119 - msg.length % 64) % 64) 0 ++
    [bits / 2 ^ 56 % 256, bits / 2 ^ 48 % 256, bits / 2 ^ 40 % 256, bits / 2 ^ 32 % 256,
     bits / 2 ^ 24 % 256, bits / 2 ^ 16 % 256, bits / 2 ^ 8 % 256, bits % 256]

/-- Big-endian 32-bit words of a byte string. -/
def beWords : List Nat → List Nat
  | b0 :: b1 :: b2 :: b3 :: rest => (b0 * 2 ^ 24 + b1 * 2 ^ 16 + b2 * 2 ^ 8 + b3) :: beWords rest
  | _ => []

/-- Message schedule: extend the word list by `n` further words. -/
def extend : Nat → List Nat → List Nat
  | 0, w => w
  | n + 1, w =>
    let i := w.length
    let w15 := w.getD (i - 15) 0
    let w2 := w.getD (i - 2) 0
    let s0 := rotr w15 7 ^^^ rotr w15 18 ^^^ (w15 >>> 3)
    let s1 := rotr w2 17 ^^^ rotr w2 19 ^^^ (w2 >>> 10)
    extend n (w ++ [w32 (w.getD (i - 16) 0 + s0 + w.getD (i - 7) 0 + s1)])

/-- One compression round with round constant `kw.1` and schedule word `kw.2`. -/
def round (s : State) (kw : Nat × Nat) : State :=
  let s1 := rotr s.e 6 ^^^ rotr s.e 11 ^^^ rotr s.e 25
  let ch := (s.e &&& s.f) ^^^ ((s.e ^^^ 0xffffffff) &&& s.g)
  let t1 := w32 (s.h + s1 + ch + kw.1 + kw.2)
  let s0 := rotr s.a 2 ^^^ rotr s.a 13 ^^^ rotr s.a 22
  let maj := (s.a &&& s.b) ^^^ (s.a &&& s.c) ^^^ (s.b &&& s.c)
  let t2 := w32 (s0 + maj)
  ⟨w32 (t1 + t2), s.a, s.b, s.c, w32 (s.d + t1), s.e, s.f, s.g⟩

/-- Compression of one 64-byte block. -/
def block (s : State) (bytes : List Nat) : State :=
  let w := extend 48 (beWords bytes)
  let t := (K.zip w).foldl round s
  ⟨w32 (s.a + t.a), w32 (s.b + t.b), w32 (s.c + t.c), w32 (s.d + t.d),
   w32 (s.e + t.e), w32 (s.f + t.f), w32 (s.g + t.g), w32 (s.h + t.h)⟩

/-- Compression of `n` consecutive blocks. -/
def blocks : Nat → State → List Nat → State
  | 0, s, _ => s
  | n + 1, s, bytes => blocks n (block s (bytes.take 64)) (bytes.drop 64)

/-- Big-endian bytes of a 32-bit word. -/
def be32 (x : Nat) : List Nat := [x / 2 ^ 24 % 256, x / 2 ^ 16 % 256, x / 2 ^ 8 % 256, x % 256]

/-- Go `sha256.Sum256`: the digest of a byte string. -/
def sum256 (msg : List Nat) : List Nat :=
  let p := pad msg
  let s := blocks (p.length / 64) init p
  be32 s.a ++ be32 s.b ++ be32 s.c ++ be32 s.d ++ be32 s.e ++ be32 s.f ++ be32 s.g ++ be32 s.h

end Sha256

namespace Base64

/-- The alphabet of `base64.StdEncoding`. -/
def alphabet : List Char :=
  "ABCDEFGHIJKLMNOPQRSTUVWXYZabcdefghijklmnopqrstuvwxyz0123456789+/".data

/-- Character of a 6-bit value. -/
def digit (n : Nat) : Char := alphabet.getD n 'A'

/-- Characters of the padded standard encoding, three bytes at a time. -/
def encode : List Nat → List Char
  | b0 :: b1 :: b2 :: rest =>
    digit (b0 / 4) :: digit (b0 % 4 * 16 + b1 / 16) :: digit (b1 % 16 * 4 + b2 / 64) ::
      digit (b2 % 64) :: encode rest
  | [b0, b1] => [digit (b0 / 4), digit (b0 % 4 * 16 + b1 / 16), digit (b1 % 16 * 4), '=']
  | [b0] => [digit (b0 / 4), digit (b0 % 4 * 16), '=', '=']
  | [] => []

/-- Go `base64.StdEncoding.EncodeToString`. -/
def encodeToString (bytes : List Nat) : String := String.mk (encode bytes)

end Base64

/-! ## Host data model (`schema.ResourceData`, `diag.Diagnostics`) -/

/-- A dynamically typed value as `ResourceData.Get` returns it (`interface{}`);
`null` is a `nil` interface held as an element of a list. -/
inductive Value where
  | null
  | str (s : String)
  | bool (b : Bool)
  | int (n : Int)
  | list (vs : List Value)
  | map (kvs : List (String × Value))

/-- Type assertion `v.(string)`; `none` is the panic of a failed assertion
(a `nil` interface included). -/
def asString : Option Value → Option String
  | some (.str s) => some s
  | _ => none

/-- Type assertion `v.(bool)`. -/
def asBool : Option Value → Option Bool
  | some (.bool b) => some b
  | _ => none

/-- Type assertion `v.(int)`. -/
def asInt : Option Value → Option Int
  | some (.int n) => some n
  | _ => none

/-- Type assertion `v.([]interface{})`. -/
def asList : Option Value → Option (List Value)
  | some (.list vs) => some vs
  | _ => none

/-- Type assertion `v.(map[string]interface{})`. -/
def asMap : Option Value → Option (List (String × Value))
  | some (.map kvs) => some kvs
  | _ => none

/-- The resource data handed to a resource function.  `fields` holds, for every key
the schema declares, the value `Get` yields (the zero value of the declared type when
the configuration leaves the key unset); `id` is the identity recorded by `SetId`
(`none` while `SetId` has not been called) and `attrs` the `Set` calls in order. -/
structure ResourceData where
  fields : List (String × Value)
  id : Option String
  attrs : List (String × Value)

/-- Go `data.Get(key)`: the value of a declared key, `nil` (`none`) for a key the
schema does not declare. -/
def ResourceData.get (data : ResourceData) (key : String) : Option Value :=
  data.fields.lookup key

/-- Go `data.SetId(id)`. -/
def ResourceData.setId (data : ResourceData) (id : String) : ResourceData :=
  { data with id := some id }

/-- Go `data.Set(key, value)`. -/
def ResourceData.set (data : ResourceData) (key : String) (value : Value) : ResourceData :=
  { data with attrs := data.attrs ++ [(key, value)] }

/-- Go `schema.ValueType`, the types the provider's schemas use. -/
inductive ValueType where
  | typeBool
  | typeInt
  | typeString
  | typeList
  | typeMap
  deriving DecidableEq

/-- Go `schema.Schema`, the declarations the provider's schemas use;
`validateNoZero` stands for `ValidateFunc: validation.NoZeroValues`.  `Description`,
`Default` and `Elem` are not embedded: nested values are carried by `Value`. -/
structure FieldSchema where
  valueType : ValueType
  required : Bool := false
  optional : Bool := false
  computed : Bool := false
  forceNew : Bool := false
  sensitive : Bool := false
  validateNoZero : Bool := false
  conflictsWith : List String := []
  deriving DecidableEq

/-- The zero value `Get` yields for a declared key the configuration leaves unset. -/
def zeroValue : ValueType → Value
  | .typeBool => .bool false
  | .typeInt => .int 0
  | .typeString => .str ""
  | .typeList => .list []
  | .typeMap => .map []

/-- The resource data the host builds from a schema and the attributes a
configuration sets: one field per declared key, holding the configured value or the
zero value of the declared type. -/
def ResourceData.ofConfig (schema : List (String × FieldSchema))
    (config : List (String × Value)) : ResourceData where
  fields := schema.map fun kf => (kf.1, (config.lookup kf.1).getD (zeroValue kf.2.valueType))
  id := none
  attrs := []

/-- Severity of a diagnostic. -/
inductive Severity where
  | error
  | warning
  deriving DecidableEq

/-- Go `diag.Diagnostic`. -/
structure Diagnostic where
  severity : Severity
  summary : String
  detail : String
  deriving DecidableEq

/-- How a resource function ends: it returns its diagnostics, or it panics. -/
inductive Exit where
  | returned (diags : List Diagnostic)
  | panicked
  deriving DecidableEq

/-! ## Credential collaborators (`storj.io/uplink`) -/

/-- Go `uplink.Permission`, reduced to the four flags the provider fills in. -/
structure Permission where
  allowDownload : Bool
  allowUpload : Bool
  allowList : Bool
  allowDelete : Bool
  deriving DecidableEq

/-- Go `uplink.SharePrefix`. -/
structure SharePrefix where
  bucket : String
  pfx : String
  deriving DecidableEq

/-- Go `edge.Credentials`. -/
structure Credentials where
  accessKeyID : String
  secretKey : String
  endpoint : String
  deriving DecidableEq

/-- The credential engine and the registration service, as opaque collaborators over
a type `A` of parsed access grants; an `error` carries the text of `err.Error()`. -/
structure Uplink (A : Type) where
  parseAccess : String → Except String A
  share : A → Permission → List SharePrefix → Except String A
  serialize : A → Except String String
  registerAccess : String → A → Bool → Except String Credentials

/-- Go `uplink.ListObjectsOptions`, reduced to the fields the provider fills in. -/
structure ListObjectsOptions where
  pfx : String
  cursor : String
  recursive : Bool
  deriving DecidableEq

/-- The source handed to `io.Copy` by `updateObject`: the opened file, a
`strings.Reader` over the literal content, or a base64 decoder over the encoded one. -/
inductive Reader where
  | file (path : String)
  | text (content : String)
  | base64 (content : String)
  deriving DecidableEq

/-- Collaborator calls, in the order they are made.  `commit` records whether the
commit succeeded. -/
inductive Call (A : Type) where
  | parseAccess (accessGrant : String)
  | share (access : A) (permission : Permission) (shares : List SharePrefix)
  | serialize (access : A)
  | registerAccess (authServiceAddress : String) (access : A) (allowPublic : Bool)
  | openProject (access : A)
  | closeProject
  | listObjects (bucket : String) (options : ListObjectsOptions)
  | osOpen (path : String)
  | fileClose
  | uploadObject (bucket : String) (key : String)
  | setCustomMetadata (metadata : List (String × String))
  | copy (reader : Reader)
  | commit (succeeded : Bool)
  | abort

/-- The outcome of running a resource function. -/
structure Final (A : Type) where
  exit : Exit
  data : ResourceData
  calls : List (Call A)

/-! ## `access_grant.go` -/

/-- Go `AccessGrantBucketSchema` (lines 15-28). -/
def AccessGrantBucketSchema : List (String × FieldSchema) :=
  [("name", { valueType := .typeString, required := true, validateNoZero := true }),
   ("paths", { valueType := .typeList, optional := true })]

/-- Go `AccessGrantSchema` (lines 30-76). -/
def AccessGrantSchema : List (String × FieldSchema) :=
  [("access_grant",
      { valueType := .typeString, required := true, forceNew := true, sensitive := true,
        validateNoZero := true }),
   ("allow_download", { valueType := .typeBool, optional := true, forceNew := true }),
   ("allow_upload", { valueType := .typeBool, optional := true, forceNew := true }),
   ("allow_list", { valueType := .typeBool, optional := true, forceNew := true }),
   ("allow_delete", { valueType := .typeBool, optional := true, forceNew := true }),
   ("bucket", { valueType := .typeList, optional := true, forceNew := true }),
   ("derived_access_grant", { valueType := .typeString, computed := true, sensitive := true })]

/-- Inner loop of `createAccessGrant` (lines 92-97): one share per path. -/
def appendPaths (name : String) : List Value → List SharePrefix → Option (List SharePrefix)
  | [], shares => some shares
  | path :: rest, shares =>
    match asString (some path) with
    | some p => appendPaths name rest (shares ++ [⟨name, p⟩])
    | none => none

/-- Outer loop of `createAccessGrant` (lines 82-99) over the declared buckets. -/
def appendBuckets : List Value → List SharePrefix → Option (List SharePrefix)
  | [], shares => some shares
  | bucket :: rest, shares =>
    match asMap (some bucket) with
    | none => none
    | some b =>
    match asString (b.lookup "name") with
    | none => none
    | some name =>
    match asList (b.lookup "paths") with
    | none => none
    | some paths =>
      if paths.length = 0 then
        appendBuckets rest (shares ++ [⟨name, ""⟩])
      else
        match appendPaths name paths shares with
        | none => none
        | some shares' => appendBuckets rest shares'

/-- Go `createAccessGrant`. -/
def createAccessGrant {A : Type} (up : Uplink A) (data : ResourceData) : Final A :=
  match asList (data.get "bucket") with
  | none => ⟨.panicked, data, []⟩
  | some buckets =>
  match appendBuckets buckets [] with
  | none => ⟨.panicked, data, []⟩
  | some shares =>
  match asString (data.get "access_grant") with
  | none => ⟨.panicked, data, []⟩
  | some accessGrant =>
  match asBool (data.get "allow_download"), asBool (data.get "allow_upload"),
      asBool (data.get "allow_list"), asBool (data.get "allow_delete") with
  | some allowDownload, some allowUpload, some allowList, some allowDelete =>
    let permission : Permission := ⟨allowDownload, allowUpload, allowList, allowDelete⟩
    match up.parseAccess accessGrant with
    | .error err =>
      ⟨.returned [⟨.error, "Failed to parse provided access grant.", err⟩], data,
        [.parseAccess accessGrant]⟩
    | .ok access =>
    match up.share access permission shares with
    | .error err =>
      ⟨.returned [⟨.error, "Failed to restrict provided access grant to new scope.", err⟩], data,
        [.parseAccess accessGrant, .share access permission shares]⟩
    | .ok access' =>
    match up.serialize access' with
    | .error err =>
      ⟨.returned [⟨.error, "Failed to serialize derived access grant.", err⟩], data,
        [.parseAccess accessGrant, .share access permission shares, .serialize access']⟩
    | .ok derived =>
      let hash := Sha256.sum256 (bytesOf derived)
      ⟨.returned [],
        (data.setId (Base64.encodeToString hash)).set "derived_access_grant" (.str derived),
        [.parseAccess accessGrant, .share access permission shares, .serialize access']⟩
  | _, _, _, _ => ⟨.panicked, data, []⟩

/-! ## Declared configurations -/

/-- One `bucket` block of an access grant resource (`AccessGrantBucketSchema`). -/
structure BucketDecl where
  name : String
  paths : List String
  deriving DecidableEq

/-- A configuration of the access grant resource (`AccessGrantSchema`). -/
structure AccessGrantConfig where
  accessGrant : String
  allowDownload : Bool
  allowUpload : Bool
  allowList : Bool
  allowDelete : Bool
  buckets : List BucketDecl

/-- The element `Get` yields for one declared path: the host hands an element that
is the empty string as a `nil` interface. -/
def pathValue (p : String) : Value :=
  if p = "" then .null else .str p

/-- The element `Get` yields for one `bucket` block: the host hands a block whose
attributes are all zero (empty name, no paths) as a `nil` interface, any other block
as a map. -/
def BucketDecl.toValue (b : BucketDecl) : Value :=
  if b.name = "" ∧ b.paths = [] then .null
  else .map [("name", .str b.name), ("paths", .list (b.paths.map pathValue))]

/-- A bucket block that reaches `createAccessGrant` as values throughout: it is not
all zero and none of its paths is the empty string. -/
abbrev BucketDecl.present (b : BucketDecl) : Prop :=
  (b.name ≠ "" ∨ b.paths ≠ []) ∧ "" ∉ b.paths

/-- The attributes an access grant configuration sets. -/
def AccessGrantConfig.attributes (cfg : AccessGrantConfig) : List (String × Value) :=
  [("access_grant", .str cfg.accessGrant),
   ("allow_download", .bool cfg.allowDownload),
   ("allow_upload", .bool cfg.allowUpload),
   ("allow_list", .bool cfg.allowList),
   ("allow_delete", .bool cfg.allowDelete),
   ("bucket", .list (cfg.buckets.map BucketDecl.toValue))]

/-- The resource data of an access grant configuration before creation. -/
def AccessGrantConfig.toData (cfg : AccessGrantConfig) : ResourceData :=
  ResourceData.ofConfig AccessGrantSchema cfg.attributes

/-- The capability set an access grant configuration declares. -/
def AccessGrantConfig.permission (cfg : AccessGrantConfig) : Permission :=
  ⟨cfg.allowDownload, cfg.allowUpload, cfg.allowList, cfg.allowDelete⟩

/-- The scopes one declared bucket stands for: the whole bucket when it has no
paths, one scope per path otherwise. -/
def scopesOfBucket (b : BucketDecl) : List SharePrefix :=
  if b.paths = [] then [⟨b.name, ""⟩] else b.paths.map fun p => ⟨b.name, p⟩

/-- The scopes a declared bucket list stands for, in declaration order. -/
def declaredScopes (buckets : List BucketDecl) : List SharePrefix :=
  buckets.flatMap scopesOfBucket

/-- The scope lists handed to the restriction step in a call log. -/
def shareArgs {A : Type} : List (Call A) → List (List SharePrefix)
  | [] => []
  | .share _ _ shares :: rest => shares :: shareArgs rest
  | _ :: rest => shareArgs rest

/-- The registration exchanges in a call log: the address, the credential and the
visibility flag of each. -/
def registerArgs {A : Type} : List (Call A) → List (String × A × Bool)
  | [] => []
  | .registerAccess authServiceAddress access allowPublic :: rest =>
    (authServiceAddress, access, allowPublic) :: registerArgs rest
  | _ :: rest => registerArgs rest

/-! ## `edge_credentials.go` -/

/-- Go `EdgeCredentialsSchema` (lines 17-56). -/
def EdgeCredentialsSchema : List (String × FieldSchema) :=
  [("access_grant",
      { valueType := .typeString, required := true, forceNew := true, sensitive := true,
        validateNoZero := true }),
   ("access_key_id", { valueType := .typeString, computed := true, sensitive := true }),
   ("allow_public_access", { valueType := .typeBool, optional := true, forceNew := true }),
   ("auth_service_address", { valueType := .typeString, optional := true, forceNew := true }),
   ("endpoint", { valueType := .typeString, computed := true }),
   ("secret_key", { valueType := .typeString, computed := true, sensitive := true })]

/-- Go `fmt.Sprintf("%s.%s.%s.%s", accessGrant, endpoint, accessKeyID, secretKey)`
(line 100): the string whose bytes are hashed for the identity. -/
def identityString (accessGrant endpoint accessKeyID secretKey : String) : String :=
  accessGrant ++ "." ++ endpoint ++ "." ++ accessKeyID ++ "." ++ secretKey

/-- Go `createEdgeCredentials`. -/
def createEdgeCredentials {A : Type} (up : Uplink A) (data : ResourceData) : Final A :=
  match asString (data.get "auth_service_address") with
  | none => ⟨.panicked, data, []⟩
  | some declaredAddress =>
  let authServiceAddress :=
    if declaredAddress = "" then "auth.storjshare.io:7777" else declaredAddress
  match asString (data.get "access_grant") with
  | none => ⟨.panicked, data, []⟩
  | some accessGrant =>
  match up.parseAccess accessGrant with
  | .error err =>
    ⟨.returned [⟨.error, "Failed to parse provided access grant.", err⟩], data,
      [.parseAccess accessGrant]⟩
  | .ok access =>
  match asBool (data.get "allow_public_access") with
  | none => ⟨.panicked, data, [.parseAccess accessGrant]⟩
  | some allowPublicAccess =>
  match up.registerAccess authServiceAddress access allowPublicAccess with
  | .error err =>
    ⟨.returned [⟨.error, "Failed to create edge credentials.", err⟩], data,
      [.parseAccess accessGrant, .registerAccess authServiceAddress access allowPublicAccess]⟩
  | .ok credentials =>
    let id := identityString accessGrant credentials.endpoint credentials.accessKeyID
      credentials.secretKey
    let hash := Sha256.sum256 (bytesOf id)
    ⟨.returned [],
      (((data.setId (Base64.encodeToString hash)).set "access_key_id"
        (.str credentials.accessKeyID)).set "endpoint" (.str credentials.endpoint)).set
        "secret_key" (.str credentials.secretKey),
      [.parseAccess accessGrant, .registerAccess authServiceAddress access allowPublicAccess]⟩

/-- A configuration of the edge credentials resource (`EdgeCredentialsSchema`);
an unset `auth_service_address` reads as the empty string and an unset
`allow_public_access` as its declared default `false`. -/
structure EdgeCredentialsConfig where
  accessGrant : String
  allowPublicAccess : Bool
  authServiceAddress : String

/-- The attributes an edge credentials configuration sets. -/
def EdgeCredentialsConfig.attributes (cfg : EdgeCredentialsConfig) : List (String × Value) :=
  [("access_grant", .str cfg.accessGrant),
   ("allow_public_access", .bool cfg.allowPublicAccess),
   ("auth_service_address", .str cfg.authServiceAddress)]

/-- The resource data of an edge credentials configuration before creation. -/
def EdgeCredentialsConfig.toData (cfg : EdgeCredentialsConfig) : ResourceData :=
  ResourceData.ofConfig EdgeCredentialsSchema cfg.attributes

/-- The address the registration is sent to: the declared one, or the default when
the declared one is unset. -/
def EdgeCredentialsConfig.address (cfg : EdgeCredentialsConfig) : String :=
  if cfg.authServiceAddress = "" then "auth.storjshare.io:7777" else cfg.authServiceAddress

/-! ## Host validation of access grants -/

/-- Go `validation.NoZeroValues` on a string attribute `k` with value `i`, the
`ValidateFunc` that `AccessGrantSchema` declares for `access_grant` and
`AccessGrantBucketSchema` for `name`: an empty string is an error. -/
def noZeroValues (i : String) (k : String) : List Diagnostic :=
  if i = "" then [⟨.error, k ++ " must not be empty, got " ++ i, ""⟩] else []

/-- The host's run of the `ValidateFunc` a schema declares for the string attribute
`k`, on the value `i`: `NoZeroValues` where declared, nothing otherwise.  The SDK
reports the validator's error as the summary of an Error diagnostic. -/
def runValidateFunc (schema : List (String × FieldSchema)) (k : String) (i : String) :
    List Diagnostic :=
  match schema.lookup k with
  | some field => if field.validateNoZero then noZeroValues i k else []
  | none => []

/-- The host's run of the `ValidateFunc` a nested schema declares for its string
attribute `k`, on the value `i`; the validator is handed the attribute path. -/
def runValidateFuncAt (schema : List (String × FieldSchema)) (k : String) (path : String)
    (i : String) : List Diagnostic :=
  match schema.lookup k with
  | some field => if field.validateNoZero then noZeroValues i path else []
  | none => []

/-- The validator declared for `name`, run over the `bucket` blocks from index `n`
on; the path of the name of block `n` is `bucket.n.name`. -/
def validateBucketNames : Nat → List BucketDecl → List Diagnostic
  | _, [] => []
  | n, b :: rest =>
    runValidateFuncAt AccessGrantBucketSchema "name" ("bucket." ++ toString n ++ ".name") b.name
      ++ validateBucketNames (n + 1) rest

/-- The validators declared by `AccessGrantSchema` and `AccessGrantBucketSchema`,
run over a configuration: `access_grant` and the `name` of every `bucket` block. -/
def validateAccessGrant (cfg : AccessGrantConfig) : List Diagnostic :=
  runValidateFunc AccessGrantSchema "access_grant" cfg.accessGrant
    ++ validateBucketNames 0 cfg.buckets

/-- The host's create of an access grant resource: the declared validators run first
and `createAccessGrant` is called only on a configuration they accept. -/
def validatedCreateAccessGrant {A : Type} (up : Uplink A) (cfg : AccessGrantConfig) : Final A :=
  match validateAccessGrant cfg with
  | [] => createAccessGrant up cfg.toData
  | errors => ⟨.returned errors, cfg.toData, []⟩

/-! ## `object.go` -/

/-- Go `ObjectSchema` (lines 17-56). -/
def ObjectSchema : List (String × FieldSchema) :=
  [("bucket",
      { valueType := .typeString, required := true, forceNew := true, validateNoZero := true }),
   ("key",
      { valueType := .typeString, required := true, forceNew := true, validateNoZero := true }),
   ("content",
      { valueType := .typeString, optional := true,
        conflictsWith := ["source", "content_base64"] }),
   ("content_base64",
      { valueType := .typeString, optional := true, conflictsWith := ["source", "content"] }),
   ("metadata", { valueType := .typeMap, optional := true }),
   ("source",
      { valueType := .typeString, optional := true,
        conflictsWith := ["content", "content_base64"] })]

/-- Go `ObjectListKind` (lines 58-86). -/
def ObjectListKind : List (String × FieldSchema) :=
  [("bucket",
      { valueType := .typeString, required := true, forceNew := true, validateNoZero := true }),
   ("prefix", { valueType := .typeString, optional := true }),
   ("max_keys", { valueType := .typeInt, optional := true }),
   ("start_offset", { valueType := .typeString, optional := true }),
   ("keys", { valueType := .typeList, computed := true })]

/-- One call of `iterator.Next()` that returned `true`: what `iterator.Err()` and
`iterator.Item().Key` answer after it. -/
structure IterStep where
  err : Option String
  key : String
  deriving DecidableEq

/-- A listing as the loop of `readObjects` observes it: the calls of `Next()` that
return `true`, then the call that returns `false`, after which `Err()` answers
`finalErr`. -/
structure ObjectIterator where
  steps : List IterStep
  finalErr : Option String
  deriving DecidableEq

/-- The storage collaborators (`uplink.OpenProject`, the project, the upload, `os.Open`
and `io.Copy`), each answering success or the text of its error. -/
structure Storage (A : Type) where
  openProject : A → Except String Unit
  listObjects : String → ListObjectsOptions → ObjectIterator
  osOpen : String → Except String Unit
  uploadObject : String → String → Except String Unit
  setCustomMetadata : List (String × String) → Except String Unit
  copy : Reader → Except String Unit
  commit : Except String Unit

/-- The loop of `readObjects` (lines 169-184) over the remaining successful calls of
`Next()`, with the keys gathered so far: the error found inside the loop, or the keys
held when the loop is left. -/
def collectKeys (maxKeys : Int) : List IterStep → List String → Except String (List String)
  | [], keys => .ok keys
  | step :: rest, keys =>
    match step.err with
    | some err => .error err
    | none =>
      if ((keys ++ [step.key]).length : Int) = maxKeys then .ok (keys ++ [step.key])
      else collectKeys maxKeys rest (keys ++ [step.key])

/-- Go `readObjects`. -/
def readObjects {A : Type} (st : Storage A) (access : A) (data : ResourceData) : Final A :=
  match st.openProject access with
  | .error err =>
    ⟨.returned [⟨.error, "Failed to open project", err⟩], data, [.openProject access]⟩
  | .ok _ =>
  match asString (data.get "bucket") with
  | none => ⟨.panicked, data, [.openProject access, .closeProject]⟩
  | some bucket =>
  match asString (data.get "prefix") with
  | none => ⟨.panicked, data, [.openProject access, .closeProject]⟩
  | some pfx =>
  match asInt (data.get "max_keys") with
  | none => ⟨.panicked, data, [.openProject access, .closeProject]⟩
  | some maxKeys =>
  match asString (data.get "start_after") with
  | none => ⟨.panicked, data, [.openProject access, .closeProject]⟩
  | some startAfter =>
    let options : ListObjectsOptions := ⟨pfx, startAfter, true⟩
    let iterator := st.listObjects bucket options
    match collectKeys maxKeys iterator.steps [] with
    | .error err =>
      ⟨.returned [⟨.error, "Failed to iterate object", err⟩], data,
        [.openProject access, .listObjects bucket options, .closeProject]⟩
    | .ok keys =>
      ⟨.returned [], (data.setId bucket).set "keys" (.list (keys.map .str)),
        [.openProject access, .listObjects bucket options, .closeProject]⟩

/-- The `switch` of `updateObject` (lines 215-238): the reader for the first
non-empty one of `source`, `content`, `content_base64`, a `nil` reader when all are
empty, or the error of `os.Open`. -/
def selectReader {A : Type} (st : Storage A) (source content contentB64 : String) :
    Except String (Option Reader) :=
  if source ≠ "" then
    match st.osOpen source with
    | .error err => .error err
    | .ok _ => .ok (some (.file source))
  else if content ≠ "" then .ok (some (.text content))
  else if contentB64 ≠ "" then .ok (some (.base64 contentB64))
  else .ok none

/-- The loop of `updateObject` over the metadata map (lines 244-246), with the
assertion `v.(string)` on every value. -/
def stringMap : List (String × Value) → Option (List (String × String))
  | [] => some []
  | (k, v) :: rest =>
    match asString (some v), stringMap rest with
    | some s, some m => some ((k, s) :: m)
    | _, _ => none

/-- Go `updateObject`.  The deferred calls (`upload.Abort`, `f.Close`,
`project.Close`) are logged at every exit reached after their `defer`. -/
def updateObject {A : Type} (st : Storage A) (access : A) (data : ResourceData) : Final A :=
  match st.openProject access with
  | .error err =>
    ⟨.returned [⟨.error, "Failed to open project", err⟩], data, [.openProject access]⟩
  | .ok _ =>
  match asString (data.get "bucket"), asString (data.get "key"),
      asString (data.get "source"), asString (data.get "content"),
      asString (data.get "content_base64") with
  | some bucket, some key, some source, some content, some contentB64 =>
    let opened : List (Call A) :=
      .openProject access :: (if source ≠ "" then [.osOpen source] else [])
    match selectReader st source content contentB64 with
    | .error err =>
      ⟨.returned [⟨.error, "Failed to open source file", err⟩], data,
        opened ++ [.closeProject]⟩
    | .ok reader =>
    let closing : List (Call A) :=
      (if source ≠ "" then [.fileClose] else []) ++ [.closeProject]
    match (asMap (data.get "metadata")).bind stringMap with
    | none => ⟨.panicked, data, opened ++ closing⟩
    | some metadata =>
    match st.uploadObject bucket key with
    | .error err =>
      ⟨.returned [⟨.error, "Failed to start object upload.", err⟩], data,
        opened ++ [.uploadObject bucket key] ++ closing⟩
    | .ok _ =>
    match st.setCustomMetadata metadata with
    | .error err =>
      ⟨.returned [⟨.error, "Failed to set metadata for object.", err⟩], data,
        opened ++ [.uploadObject bucket key, .setCustomMetadata metadata, .abort] ++ closing⟩
    | .ok _ =>
    match reader with
    | none =>
      ⟨.panicked, data,
        opened ++ [.uploadObject bucket key, .setCustomMetadata metadata, .abort] ++ closing⟩
    | some r =>
    match st.copy r with
    | .error err =>
      ⟨.returned [⟨.error, "Failed to upload object content.", err⟩], data,
        opened ++ [.uploadObject bucket key, .setCustomMetadata metadata, .copy r, .abort]
          ++ closing⟩
    | .ok _ =>
    match st.commit with
    | .error err =>
      ⟨.returned [⟨.error, "Failed to commit object upload.", err⟩], data,
        opened ++ [.uploadObject bucket key, .setCustomMetadata metadata, .copy r,
          .commit false, .abort] ++ closing⟩
    | .ok _ =>
      ⟨.returned [], data.setId key,
        opened ++ [.uploadObject bucket key, .setCustomMetadata metadata, .copy r,
          .commit true, .abort] ++ closing⟩
  | _, _, _, _, _ => ⟨.panicked, data, [.openProject access, .closeProject]⟩

/-- Go `createObject`. -/
def createObject {A : Type} (st : Storage A) (access : A) (data : ResourceData) : Final A :=
  updateObject st access data

/-! ## Object configurations and host validation -/

/-- A configuration of the object resource (`ObjectSchema`); an unset string
attribute reads as the empty string. -/
structure ObjectConfig where
  bucket : String
  key : String
  content : String
  contentBase64 : String
  metadata : List (String × String)
  source : String

/-- The attributes an object configuration sets. -/
def ObjectConfig.attributes (cfg : ObjectConfig) : List (String × Value) :=
  [("bucket", .str cfg.bucket),
   ("key", .str cfg.key),
   ("content", .str cfg.content),
   ("content_base64", .str cfg.contentBase64),
   ("metadata", .map (cfg.metadata.map fun kv => (kv.1, .str kv.2))),
   ("source", .str cfg.source)]

/-- The resource data of an object configuration before creation. -/
def ObjectConfig.toData (cfg : ObjectConfig) : ResourceData :=
  ResourceData.ofConfig ObjectSchema cfg.attributes

/-- Whether an object configuration gives the string attribute `k` a non-empty
value, in which case the attribute is set in the configuration.  The host also counts
an attribute written explicitly as the empty string as set; such configurations are
not told apart here, so the check below is a lower bound of the host's. -/
def ObjectConfig.isSet (cfg : ObjectConfig) (k : String) : Bool :=
  match asString (cfg.attributes.lookup k) with
  | some s => s ≠ ""
  | none => false

/-- The host's check of the `ConflictsWith` declarations of a schema (the SDK's
`validateConflictingAttributes`): an attribute that is set while an attribute it
conflicts with is set as well is an error. -/
def conflictErrors (schema : List (String × FieldSchema)) (isSet : String → Bool) :
    List Diagnostic :=
  schema.flatMap fun kf =>
    if isSet kf.1 then
      match kf.2.conflictsWith.find? isSet with
      | some c =>
        [⟨.error, "Conflicting configuration arguments",
          "\"" ++ kf.1 ++ "\": conflicts with " ++ c⟩]
      | none => []
    else []

/-- The validation `ObjectSchema` declares, run over a configuration:
`NoZeroValues` on `bucket` and `key`, and the `ConflictsWith` lists. -/
def validateObject (cfg : ObjectConfig) : List Diagnostic :=
  runValidateFunc ObjectSchema "bucket" cfg.bucket ++ runValidateFunc ObjectSchema "key" cfg.key
    ++ conflictErrors ObjectSchema cfg.isSet

/-- The host's update (and create) of an object resource: the declared validation
runs first and `updateObject` is called only on a configuration it accepts. -/
def validatedUpdateObject {A : Type} (st : Storage A) (access : A) (cfg : ObjectConfig) :
    Final A :=
  match validateObject cfg with
  | [] => updateObject st access cfg.toData
  | errors => ⟨.returned errors, cfg.toData, []⟩

/-- Resource data of a schema that declares the four keys `readObjects` reads
(`bucket`, `prefix`, `max_keys`, `start_after`) and `keys`. -/
def listingData (bucket pfx : String) (maxKeys : Int) (startAfter : String) : ResourceData where
  fields :=
    [("bucket", .str bucket), ("prefix", .str pfx), ("max_keys", .int maxKeys),
     ("start_after", .str startAfter), ("keys", .list [])]
  id := none
  attrs := []

/-! ## Sample collaborators and configurations -/

/-- A credential engine over strings: parsing accepts every non-empty grant, sharing
appends a mark, serialising is the identity, registering answers fixed credentials. -/
def sampleUplink : Uplink String where
  parseAccess := fun s => if s = "" then .error "empty access grant" else .ok s
  share := fun a _ _ => .ok (a ++ "+")
  serialize := fun a => .ok a
  registerAccess := fun _ _ _ => .ok ⟨"key", "secret", "https://gateway.example"⟩

/-- An access grant configuration with one whole-bucket scope and two path scopes. -/
def sampleGrantConfig : AccessGrantConfig where
  accessGrant := "root"
  allowDownload := true
  allowUpload := false
  allowList := false
  allowDelete := false
  buckets := [⟨"photos", []⟩, ⟨"logs", ["2024/", "2025/"]⟩]

/-- A credential engine whose registration service cannot be reached. -/
def unreachableUplink : Uplink String where
  parseAccess := fun s => if s = "" then .error "empty access grant" else .ok s
  share := fun a _ _ => .ok (a ++ "+")
  serialize := fun a => .ok a
  registerAccess := fun _ _ _ => .error "dial tcp: connection refused"

/-- An edge credentials configuration that leaves the auth service address unset. -/
def sampleEdgeConfig : EdgeCredentialsConfig where
  accessGrant := "root"
  allowPublicAccess := false
  authServiceAddress := ""

/-- A registration service answering the given credentials for every request. -/
def answeringUplink (credentials : Credentials) : Uplink String where
  parseAccess := fun s => if s = "" then .error "empty access grant" else .ok s
  share := fun a _ _ => .ok (a ++ "+")
  serialize := fun a => .ok a
  registerAccess := fun _ _ _ => .ok credentials

/-- An access grant configuration with one bucket block whose name is empty and
which declares one path. -/
def emptyNameGrantConfig : AccessGrantConfig where
  accessGrant := "root"
  allowDownload := true
  allowUpload := false
  allowList := false
  allowDelete := false
  buckets := [⟨"", ["2024/"]⟩]

/-- An access grant configuration with one bucket block whose only path is the empty
string. -/
def emptyPathGrantConfig : AccessGrantConfig where
  accessGrant := "root"
  allowDownload := true
  allowUpload := false
  allowList := false
  allowDelete := false
  buckets := [⟨"c", [""]⟩]

/-- An object configuration that sets none of `source`, `content` and
`content_base64`. -/
def contentlessObjectConfig : ObjectConfig where
  bucket := "photos"
  key := "cat.txt"
  content := ""
  contentBase64 := ""
  metadata := []
  source := ""

/-- A storage whose project opens and whose listing is the given iterator; the upload
steps answer as given. -/
def scriptedStorage (iterator : ObjectIterator)
    (setCustomMetadata copy commit : Except String Unit) : Storage String where
  openProject := fun _ => .ok ()
  listObjects := fun _ _ => iterator
  osOpen := fun _ => .ok ()
  uploadObject := fun _ _ => .ok ()
  setCustomMetadata := fun _ => setCustomMetadata
  copy := fun _ => copy
  commit := commit

/-- An object configuration that sets both `source` and `content`. -/
def conflictingObjectConfig : ObjectConfig where
  bucket := "photos"
  key := "cat.txt"
  content := "hello"
  contentBase64 := ""
  metadata := []
  source := "cat.txt"

/-- An object configuration with literal content and one metadata entry. -/
def sampleObjectConfig : ObjectConfig where
  bucket := "photos"
  key := "cat.txt"
  content := "hello"
  contentBase64 := ""
  metadata := [("owner", "ops")]
  source := ""

/-- An edge credentials configuration that declares its own auth service address and
asks for public access. -/
def addressedEdgeConfig : EdgeCredentialsConfig where
  accessGrant := "root"
  allowPublicAccess := true
  authServiceAddress := "auth.example:7777"

/-- A credential engine that refuses every restriction. -/
def refusingUplink : Uplink String where
  parseAccess := fun s => if s = "" then .error "empty access grant" else .ok s
  share := fun _ _ _ => .error "permission is empty"
  serialize := fun a => .ok a
  registerAccess := fun _ _ _ => .ok ⟨"key", "secret", "https://gateway.example"⟩

/-! ## Properties -/

/-- On declared paths none of which is empty, the inner loop appends one share per
path. -/
theorem appendPaths_map (name : String) (paths : List String) (shares : List SharePrefix)
    (hpaths : "" ∉ paths) :
    appendPaths name (paths.map pathValue) shares
      = some (shares ++ paths.map fun p => ⟨name, p⟩) := by
  induction paths generalizing shares with
  | nil => simp [appendPaths]
  | cons p rest ih =>
    have hp : p ≠ "" := fun h => hpaths (h ▸ List.mem_cons_self _ _)
    have hrest : "" ∉ rest := fun h => hpaths (List.mem_cons_of_mem _ h)
    simp [appendPaths, pathValue, hp, asString, ih _ hrest]

/-- The inner loop panics when a declared path is the empty string. -/
theorem appendPaths_none (name : String) (paths : List String) (shares : List SharePrefix)
    (hpaths : "" ∈ paths) : appendPaths name (paths.map pathValue) shares = none := by
  induction paths generalizing shares with
  | nil => simp at hpaths
  | cons p rest ih =>
    by_cases hp : p = ""
    · simp [appendPaths, pathValue, hp, asString]
    · have hrest : "" ∈ rest := by
        rcases List.mem_cons.mp hpaths with h | h
        · exact absurd h.symm hp
        · exact h
      simp [appendPaths, pathValue, hp, asString, ih _ hrest]

/-- On declared blocks that are all present, the outer loop builds the declared
scopes. -/
theorem appendBuckets_map (buckets : List BucketDecl) (shares : List SharePrefix)
    (hpresent : ∀ b ∈ buckets, b.present) :
    appendBuckets (buckets.map BucketDecl.toValue) shares
      = some (shares ++ declaredScopes buckets) := by
  induction buckets generalizing shares with
  | nil => simp [appendBuckets, declaredScopes]
  | cons b rest ih =>
    have hcons : declaredScopes (b :: rest) = scopesOfBucket b ++ declaredScopes rest := by
      simp [declaredScopes]
    have hb : b.present := hpresent b (List.mem_cons_self _ _)
    have hrest : ∀ b ∈ rest, b.present := fun c hc => hpresent c (List.mem_cons_of_mem _ hc)
    obtain ⟨hnz, hne⟩ := hb
    have hval : b.toValue
        = .map [("name", .str b.name), ("paths", .list (b.paths.map pathValue))] := by
      unfold BucketDecl.toValue
      rw [if_neg]
      rintro ⟨h1, h2⟩
      rcases hnz with h | h
      · exact h h1
      · exact h h2
    rw [hcons]
    simp only [List.map_cons, hval]
    cases hp : b.paths with
    | nil =>
      simp [appendBuckets, asMap, asString, asList, List.lookup, ih _ hrest, scopesOfBucket, hp]
    | cons p ps =>
      have hpaths := appendPaths_map b.name (p :: ps) shares (hp ▸ hne)
      simp only [List.map_cons] at hpaths
      simp [appendBuckets, asMap, asString, asList, List.lookup, ih _ hrest, scopesOfBucket,
        hpaths, hp]

theorem toData_get_bucket (cfg : AccessGrantConfig) :
    cfg.toData.get "bucket" = some (.list (cfg.buckets.map BucketDecl.toValue)) := rfl

theorem toData_get_access_grant (cfg : AccessGrantConfig) :
    cfg.toData.get "access_grant" = some (.str cfg.accessGrant) := rfl

theorem toData_get_allow_download (cfg : AccessGrantConfig) :
    cfg.toData.get "allow_download" = some (.bool cfg.allowDownload) := rfl

theorem toData_get_allow_upload (cfg : AccessGrantConfig) :
    cfg.toData.get "allow_upload" = some (.bool cfg.allowUpload) := rfl

theorem toData_get_allow_list (cfg : AccessGrantConfig) :
    cfg.toData.get "allow_list" = some (.bool cfg.allowList) := rfl

theorem toData_get_allow_delete (cfg : AccessGrantConfig) :
    cfg.toData.get "allow_delete" = some (.bool cfg.allowDelete) := rfl

/-- On the data of a declared configuration whose bucket blocks are all present,
every read of `createAccessGrant` succeeds, and the function is the chain parse,
share, serialize, hash. -/
theorem createAccessGrant_toData {A : Type} (up : Uplink A) (cfg : AccessGrantConfig)
    (hpresent : ∀ b ∈ cfg.buckets, b.present) :
    createAccessGrant up cfg.toData =
      match up.parseAccess cfg.accessGrant with
      | .error err =>
        ⟨.returned [⟨.error, "Failed to parse provided access grant.", err⟩], cfg.toData,
          [.parseAccess cfg.accessGrant]⟩
      | .ok access =>
      match up.share access cfg.permission (declaredScopes cfg.buckets) with
      | .error err =>
        ⟨.returned [⟨.error, "Failed to restrict provided access grant to new scope.", err⟩],
          cfg.toData,
          [.parseAccess cfg.accessGrant,
           .share access cfg.permission (declaredScopes cfg.buckets)]⟩
      | .ok access' =>
      match up.serialize access' with
      | .error err =>
        ⟨.returned [⟨.error, "Failed to serialize derived access grant.", err⟩], cfg.toData,
          [.parseAccess cfg.accessGrant,
           .share access cfg.permission (declaredScopes cfg.buckets), .serialize access']⟩
      | .ok derived =>
        ⟨.returned [],
          (cfg.toData.setId (Base64.encodeToString (Sha256.sum256 (bytesOf derived)))).set
            "derived_access_grant" (.str derived),
          [.parseAccess cfg.accessGrant,
           .share access cfg.permission (declaredScopes cfg.buckets), .serialize access']⟩ := by
  have hb := appendBuckets_map cfg.buckets [] hpresent
  simp only [List.nil_append] at hb
  simp only [createAccessGrant, toData_get_bucket, toData_get_access_grant,
    toData_get_allow_download, toData_get_allow_upload, toData_get_allow_list,
    toData_get_allow_delete, asList, asString, asBool, hb, AccessGrantConfig.permission]

/-- For every declared bucket list whose blocks are all present, once the access
grant parses, the call log of `createAccessGrant` is the parse followed by exactly one
restriction call whose scope list is the concatenation, in declaration order, of each
bucket's scopes: a bucket without paths gives the single scope with empty prefix, a
bucket with paths gives one scope per path in path order, and no declared bucket gives
the empty scope list. -/
theorem createAccessGrant_scopes {A : Type} (up : Uplink A) (cfg : AccessGrantConfig)
    (access : A) (hpresent : ∀ b ∈ cfg.buckets, b.present)
    (hparse : up.parseAccess cfg.accessGrant = .ok access) :
    (∃ rest, (createAccessGrant up cfg.toData).calls
        = .parseAccess cfg.accessGrant
          :: .share access cfg.permission (declaredScopes cfg.buckets) :: rest
      ∧ shareArgs rest = [])
    ∧ declaredScopes cfg.buckets
        = cfg.buckets.flatMap (fun b =>
            if b.paths.length = 0 then [SharePrefix.mk b.name ""]
            else b.paths.map fun p => SharePrefix.mk b.name p)
    ∧ (cfg.buckets = [] →
        shareArgs (createAccessGrant up cfg.toData).calls = [[]]) := by
  have hcalls : ∃ rest, (createAccessGrant up cfg.toData).calls
        = .parseAccess cfg.accessGrant
          :: .share access cfg.permission (declaredScopes cfg.buckets) :: rest
      ∧ shareArgs rest = [] := by
    rw [createAccessGrant_toData up cfg hpresent]
    simp only [hparse]
    cases hs : up.share access cfg.permission (declaredScopes cfg.buckets) with
    | error e => simp [shareArgs]
    | ok access' =>
      cases hz : up.serialize access' with
      | error e => simp [hz, shareArgs]
      | ok derived => simp [hz, shareArgs]
  refine ⟨hcalls, ?_, ?_⟩
  · unfold declaredScopes
    congr 1
    funext b
    cases hp : b.paths <;> simp [scopesOfBucket, hp]
  · intro hnil
    obtain ⟨rest, hc, hr⟩ := hcalls
    rw [hc]
    simp [shareArgs, hr, hnil, declaredScopes]

/-- The scopes handed to the restriction step for the sample configuration: the whole
bucket `photos`, then the two paths of `logs`. -/
theorem createAccessGrant_scopes_witness :
    (∀ b ∈ sampleGrantConfig.buckets, b.present)
    ∧ sampleUplink.parseAccess sampleGrantConfig.accessGrant = .ok "root"
    ∧ shareArgs (createAccessGrant sampleUplink sampleGrantConfig.toData).calls
        = [[⟨"photos", ""⟩, ⟨"logs", "2024/"⟩, ⟨"logs", "2025/"⟩]] := by
  have hp : ∀ b ∈ sampleGrantConfig.buckets, b.present := by decide
  have h := createAccessGrant_scopes sampleUplink sampleGrantConfig "root" hp rfl
  obtain ⟨⟨rest, hc, hr⟩, _, _⟩ := h
  refine ⟨hp, rfl, ?_⟩
  rw [hc]
  simp only [shareArgs, hr]
  decide

/-- The outer loop panics when a declared block is not present: an all-zero block is
a `nil` element at `bucket.(map[string]interface{})`, an empty path a `nil` element
at `path.(string)`. -/
theorem appendBuckets_none (buckets : List BucketDecl) (shares : List SharePrefix)
    (habsent : ∃ b ∈ buckets, ¬ b.present) :
    appendBuckets (buckets.map BucketDecl.toValue) shares = none := by
  induction buckets generalizing shares with
  | nil =>
    obtain ⟨b, hb, _⟩ := habsent
    simp at hb
  | cons b rest ih =>
    by_cases hzero : b.name = "" ∧ b.paths = []
    · simp [appendBuckets, BucketDecl.toValue, hzero, asMap]
    · have hval : b.toValue
          = .map [("name", .str b.name), ("paths", .list (b.paths.map pathValue))] := by
        unfold BucketDecl.toValue
        rw [if_neg hzero]
      simp only [List.map_cons, hval]
      by_cases hempty : "" ∈ b.paths
      · have hne : b.paths ≠ [] := by
          intro h0
          rw [h0] at hempty
          simp at hempty
        simp [appendBuckets, asMap, asString, asList, List.lookup, hne,
          appendPaths_none b.name b.paths shares hempty]
      · have hb : b.present := by
          refine ⟨?_, hempty⟩
          by_cases h1 : b.name = ""
          · right
            intro h2
            exact hzero ⟨h1, h2⟩
          · left
            exact h1
        have hrest : ∃ c ∈ rest, ¬ c.present := by
          obtain ⟨c, hc, hcp⟩ := habsent
          rcases List.mem_cons.mp hc with h | h
          · exact absurd (h ▸ hb) hcp
          · exact ⟨c, h, hcp⟩
        cases hp : b.paths with
        | nil =>
          simp [appendBuckets, asMap, asString, asList, List.lookup, ih _ hrest]
        | cons p ps =>
          have hpaths := appendPaths_map b.name (p :: ps) shares (hp ▸ hempty)
          simp only [List.map_cons] at hpaths
          simp [appendBuckets, asMap, asString, asList, List.lookup, hpaths, ih _ hrest]

/-- On every declared configuration with a block that is not present,
`createAccessGrant` panics before it calls any collaborator and leaves the data as it
was. -/
theorem createAccessGrant_absent {A : Type} (up : Uplink A) (cfg : AccessGrantConfig)
    (habsent : ∃ b ∈ cfg.buckets, ¬ b.present) :
    createAccessGrant up cfg.toData = ⟨.panicked, cfg.toData, []⟩ := by
  have hb := appendBuckets_none cfg.buckets [] habsent
  simp only [createAccessGrant, toData_get_bucket, asList, hb]

/-- C1 (code at the failing input): the declared bucket `c` has the single path `""`,
so its declared scope list is `[{c, ""}]`, and the access grant parses; the path
reaches `createAccessGrant` as a `nil` element, and the function panics at
`path.(string)` without calling any collaborator: the restriction step is never
handed a scope list. -/
theorem createAccessGrant_empty_path :
    emptyPathGrantConfig.buckets = [⟨"c", [""]⟩]
    ∧ declaredScopes emptyPathGrantConfig.buckets = [⟨"c", ""⟩]
    ∧ sampleUplink.parseAccess emptyPathGrantConfig.accessGrant = .ok "root"
    ∧ emptyPathGrantConfig.toData.get "bucket"
        = some (.list [.map [("name", .str "c"), ("paths", .list [.null])]])
    ∧ (createAccessGrant sampleUplink emptyPathGrantConfig.toData).exit = .panicked
    ∧ (createAccessGrant sampleUplink emptyPathGrantConfig.toData).calls = []
    ∧ shareArgs (createAccessGrant sampleUplink emptyPathGrantConfig.toData).calls = [] :=
  ⟨rfl, rfl, rfl, rfl, rfl, rfl, rfl⟩

/-- On the data of a declared configuration every read of `createEdgeCredentials`
succeeds, and the function is the chain parse, register, hash. -/
theorem createEdgeCredentials_toData {A : Type} (up : Uplink A) (cfg : EdgeCredentialsConfig) :
    createEdgeCredentials up cfg.toData =
      match up.parseAccess cfg.accessGrant with
      | .error err =>
        ⟨.returned [⟨.error, "Failed to parse provided access grant.", err⟩], cfg.toData,
          [.parseAccess cfg.accessGrant]⟩
      | .ok access =>
      match up.registerAccess cfg.address access cfg.allowPublicAccess with
      | .error err =>
        ⟨.returned [⟨.error, "Failed to create edge credentials.", err⟩], cfg.toData,
          [.parseAccess cfg.accessGrant,
           .registerAccess cfg.address access cfg.allowPublicAccess]⟩
      | .ok credentials =>
        ⟨.returned [],
          (((cfg.toData.setId (Base64.encodeToString (Sha256.sum256 (bytesOf
              (identityString cfg.accessGrant credentials.endpoint credentials.accessKeyID
                credentials.secretKey))))).set "access_key_id"
            (.str credentials.accessKeyID)).set "endpoint" (.str credentials.endpoint)).set
            "secret_key" (.str credentials.secretKey),
          [.parseAccess cfg.accessGrant,
           .registerAccess cfg.address access cfg.allowPublicAccess]⟩ := by
  have h1 : cfg.toData.get "auth_service_address" = some (.str cfg.authServiceAddress) := rfl
  have h2 : cfg.toData.get "access_grant" = some (.str cfg.accessGrant) := rfl
  have h3 : cfg.toData.get "allow_public_access" = some (.bool cfg.allowPublicAccess) := rfl
  simp only [createEdgeCredentials, h1, h2, h3, asString, asBool, EdgeCredentialsConfig.address]

/-- A resource function leaves the data untouched whenever it returns a diagnostic:
`createAccessGrant`. -/
theorem createAccessGrant_failClosed {A : Type} (up : Uplink A) (data : ResourceData)
    (diags : List Diagnostic) (hexit : (createAccessGrant up data).exit = .returned diags)
    (hne : diags ≠ []) : (createAccessGrant up data).data = data := by
  unfold createAccessGrant at hexit ⊢
  cases h1 : asList (data.get "bucket") with
  | none => simp only [h1]
  | some buckets =>
  cases h2 : appendBuckets buckets [] with
  | none => simp only [h1, h2]
  | some shares =>
  cases h3 : asString (data.get "access_grant") with
  | none => simp only [h1, h2, h3]
  | some accessGrant =>
  cases h4 : asBool (data.get "allow_download") with
  | none => simp only [h1, h2, h3, h4]
  | some allowDownload =>
  cases h5 : asBool (data.get "allow_upload") with
  | none => simp only [h1, h2, h3, h4, h5]
  | some allowUpload =>
  cases h6 : asBool (data.get "allow_list") with
  | none => simp only [h1, h2, h3, h4, h5, h6]
  | some allowList =>
  cases h7 : asBool (data.get "allow_delete") with
  | none => simp only [h1, h2, h3, h4, h5, h6, h7]
  | some allowDelete =>
  simp only [h1, h2, h3, h4, h5, h6, h7] at hexit ⊢
  cases h8 : up.parseAccess accessGrant with
  | error err => simp only [h8]
  | ok access =>
  simp only [h8] at hexit ⊢
  cases h9 : up.share access ⟨allowDownload, allowUpload, allowList, allowDelete⟩ shares with
  | error err => simp only [h9]
  | ok access' =>
  simp only [h9] at hexit ⊢
  cases h10 : up.serialize access' with
  | error err => simp only [h10]
  | ok derived =>
  simp only [h10] at hexit
  exact absurd (Exit.returned.inj hexit).symm hne

/-- A resource function leaves the data untouched whenever it returns a diagnostic:
`createEdgeCredentials`. -/
theorem createEdgeCredentials_failClosed {A : Type} (up : Uplink A) (data : ResourceData)
    (diags : List Diagnostic) (hexit : (createEdgeCredentials up data).exit = .returned diags)
    (hne : diags ≠ []) : (createEdgeCredentials up data).data = data := by
  unfold createEdgeCredentials at hexit ⊢
  cases h1 : asString (data.get "auth_service_address") with
  | none => simp only [h1]
  | some declaredAddress =>
  cases h2 : asString (data.get "access_grant") with
  | none => simp only [h1, h2]
  | some accessGrant =>
  simp only [h1, h2] at hexit ⊢
  cases h3 : up.parseAccess accessGrant with
  | error err => simp only [h3]
  | ok access =>
  simp only [h3] at hexit ⊢
  cases h4 : asBool (data.get "allow_public_access") with
  | none => simp only [h4]
  | some allowPublicAccess =>
  simp only [h4] at hexit ⊢
  cases h5 : up.registerAccess
      (if declaredAddress = "" then "auth.storjshare.io:7777" else declaredAddress) access
      allowPublicAccess with
  | error err => simp only [h5]
  | ok credentials =>
  simp only [h5] at hexit
  exact absurd (Exit.returned.inj hexit).symm hne

/-- The exits of `createAccessGrant` on any resource data: a panic before any
collaborator is called, or, with the scope list its loops built, one of the four ends
of the chain parse, share, serialize. -/
theorem createAccessGrant_cases {A : Type} (up : Uplink A) (data : ResourceData) :
    createAccessGrant up data = ⟨.panicked, data, []⟩
    ∨ ∃ buckets shares g perm,
        asList (data.get "bucket") = some buckets ∧ appendBuckets buckets [] = some shares
        ∧ ((∃ err, up.parseAccess g = .error err
              ∧ createAccessGrant up data
                = ⟨.returned [⟨.error, "Failed to parse provided access grant.", err⟩], data,
                    [.parseAccess g]⟩)
          ∨ (∃ a err, up.parseAccess g = .ok a ∧ up.share a perm shares = .error err
              ∧ createAccessGrant up data
                = ⟨.returned
                    [⟨.error, "Failed to restrict provided access grant to new scope.", err⟩],
                    data, [.parseAccess g, .share a perm shares]⟩)
          ∨ (∃ a a' err, up.parseAccess g = .ok a ∧ up.share a perm shares = .ok a'
              ∧ up.serialize a' = .error err
              ∧ createAccessGrant up data
                = ⟨.returned [⟨.error, "Failed to serialize derived access grant.", err⟩],
                    data, [.parseAccess g, .share a perm shares, .serialize a']⟩)
          ∨ (∃ a a' d, up.parseAccess g = .ok a ∧ up.share a perm shares = .ok a'
              ∧ up.serialize a' = .ok d
              ∧ createAccessGrant up data
                = ⟨.returned [],
                    (data.setId (Base64.encodeToString (Sha256.sum256 (bytesOf d)))).set
                      "derived_access_grant" (.str d),
                    [.parseAccess g, .share a perm shares, .serialize a']⟩)) := by
  unfold createAccessGrant
  cases h1 : asList (data.get "bucket") with
  | none => left; simp only
  | some buckets =>
  cases h2 : appendBuckets buckets [] with
  | none => left; simp only [h2]
  | some shares =>
  cases h3 : asString (data.get "access_grant") with
  | none => left; simp only [h2]
  | some accessGrant =>
  cases h4 : asBool (data.get "allow_download") with
  | none => left; simp only [h2]
  | some allowDownload =>
  cases h5 : asBool (data.get "allow_upload") with
  | none => left; simp only [h2]
  | some allowUpload =>
  cases h6 : asBool (data.get "allow_list") with
  | none => left; simp only [h2]
  | some allowList =>
  cases h7 : asBool (data.get "allow_delete") with
  | none => left; simp only [h2]
  | some allowDelete =>
  right
  refine ⟨buckets, shares, accessGrant,
    ⟨allowDownload, allowUpload, allowList, allowDelete⟩, rfl, h2, ?_⟩
  simp only [h2]
  cases h8 : up.parseAccess accessGrant with
  | error err => exact Or.inl ⟨err, rfl, rfl⟩
  | ok access =>
  cases h9 : up.share access ⟨allowDownload, allowUpload, allowList, allowDelete⟩ shares with
  | error err => exact Or.inr (Or.inl ⟨access, err, rfl, h9, by simp only [h9]⟩)
  | ok access' =>
  cases h10 : up.serialize access' with
  | error err =>
    exact Or.inr (Or.inr (Or.inl ⟨access, access', err, rfl, h9, h10, by simp only [h9, h10]⟩))
  | ok derived =>
    exact Or.inr (Or.inr (Or.inr ⟨access, access', derived, rfl, h9, h10,
      by simp only [h9, h10]⟩))

/-- C2: the credential-creating operations fail closed.  Whenever `createEdgeCredentials`
or `createAccessGrant` returns a diagnostic, on any resource data, the data is left as
it was: no identity is set and no attribute is written.  Each failing collaborator
step makes the function return exactly one diagnostic of severity Error whose detail
is the collaborator's error text unchanged, with the identity unset and no attribute
written: parse and register of `createEdgeCredentials` on every declared
configuration; parse, restrict and serialize of `createAccessGrant` on every declared
configuration whose bucket blocks are all present, and, on any resource data, for
every such call in the call log that answered an error. -/
theorem credentials_failClosed {A : Type} (up : Uplink A) :
    (∀ data diags, (createEdgeCredentials up data).exit = .returned diags → diags ≠ [] →
        (createEdgeCredentials up data).data = data)
    ∧ (∀ data diags, (createAccessGrant up data).exit = .returned diags → diags ≠ [] →
        (createAccessGrant up data).data = data)
    ∧ (∀ (cfg : EdgeCredentialsConfig) err, up.parseAccess cfg.accessGrant = .error err →
        (createEdgeCredentials up cfg.toData).exit
            = .returned [⟨.error, "Failed to parse provided access grant.", err⟩]
          ∧ (createEdgeCredentials up cfg.toData).data.id = none
          ∧ (createEdgeCredentials up cfg.toData).data.attrs = [])
    ∧ (∀ (cfg : EdgeCredentialsConfig) access err,
        up.parseAccess cfg.accessGrant = .ok access →
        up.registerAccess cfg.address access cfg.allowPublicAccess = .error err →
        (createEdgeCredentials up cfg.toData).exit
            = .returned [⟨.error, "Failed to create edge credentials.", err⟩]
          ∧ (createEdgeCredentials up cfg.toData).data.id = none
          ∧ (createEdgeCredentials up cfg.toData).data.attrs = [])
    ∧ (∀ (cfg : AccessGrantConfig) err, (∀ b ∈ cfg.buckets, b.present) →
        up.parseAccess cfg.accessGrant = .error err →
        (createAccessGrant up cfg.toData).exit
            = .returned [⟨.error, "Failed to parse provided access grant.", err⟩]
          ∧ (createAccessGrant up cfg.toData).data.id = none
          ∧ (createAccessGrant up cfg.toData).data.attrs = [])
    ∧ (∀ (cfg : AccessGrantConfig) access err, (∀ b ∈ cfg.buckets, b.present) →
        up.parseAccess cfg.accessGrant = .ok access →
        up.share access cfg.permission (declaredScopes cfg.buckets) = .error err →
        (createAccessGrant up cfg.toData).exit
            = .returned [⟨.error, "Failed to restrict provided access grant to new scope.", err⟩]
          ∧ (createAccessGrant up cfg.toData).data.id = none
          ∧ (createAccessGrant up cfg.toData).data.attrs = [])
    ∧ (∀ (cfg : AccessGrantConfig) access access' err, (∀ b ∈ cfg.buckets, b.present) →
        up.parseAccess cfg.accessGrant = .ok access →
        up.share access cfg.permission (declaredScopes cfg.buckets) = .ok access' →
        up.serialize access' = .error err →
        (createAccessGrant up cfg.toData).exit
            = .returned [⟨.error, "Failed to serialize derived access grant.", err⟩]
          ∧ (createAccessGrant up cfg.toData).data.id = none
          ∧ (createAccessGrant up cfg.toData).data.attrs = [])
    ∧ (∀ data g err, Call.parseAccess g ∈ (createAccessGrant up data).calls →
        up.parseAccess g = .error err →
        (createAccessGrant up data).exit
            = .returned [⟨.error, "Failed to parse provided access grant.", err⟩]
          ∧ (createAccessGrant up data).data = data)
    ∧ (∀ data access perm shares err,
        Call.share access perm shares ∈ (createAccessGrant up data).calls →
        up.share access perm shares = .error err →
        (createAccessGrant up data).exit
            = .returned [⟨.error, "Failed to restrict provided access grant to new scope.", err⟩]
          ∧ (createAccessGrant up data).data = data)
    ∧ (∀ data access err, Call.serialize access ∈ (createAccessGrant up data).calls →
        up.serialize access = .error err →
        (createAccessGrant up data).exit
            = .returned [⟨.error, "Failed to serialize derived access grant.", err⟩]
          ∧ (createAccessGrant up data).data = data) := by
  refine ⟨fun data diags => createEdgeCredentials_failClosed up data diags,
    fun data diags => createAccessGrant_failClosed up data diags, ?_, ?_, ?_, ?_, ?_, ?_, ?_, ?_⟩
  · intro cfg err h
    have e := createEdgeCredentials_toData up cfg
    simp only [h] at e
    rw [e]
    exact ⟨rfl, rfl, rfl⟩
  · intro cfg access err h1 h2
    have e := createEdgeCredentials_toData up cfg
    simp only [h1, h2] at e
    rw [e]
    exact ⟨rfl, rfl, rfl⟩
  · intro cfg err hp h
    have e := createAccessGrant_toData up cfg hp
    simp only [h] at e
    rw [e]
    exact ⟨rfl, rfl, rfl⟩
  · intro cfg access err hp h1 h2
    have e := createAccessGrant_toData up cfg hp
    simp only [h1, h2] at e
    rw [e]
    exact ⟨rfl, rfl, rfl⟩
  · intro cfg access access' err hp h1 h2 h3
    have e := createAccessGrant_toData up cfg hp
    simp only [h1, h2, h3] at e
    rw [e]
    exact ⟨rfl, rfl, rfl⟩
  · intro data g err hmem hfail
    rcases createAccessGrant_cases up data with e | ⟨buckets, shares, g0, perm, _, _, hc⟩
    · rw [e] at hmem
      simp at hmem
    · rcases hc with ⟨err0, hp, e⟩ | ⟨a, err0, hp, hs, e⟩ | ⟨a, a', err0, hp, hs, hz, e⟩
          | ⟨a, a', d, hp, hs, hz, e⟩
      all_goals rw [e] at hmem ⊢
      all_goals simp at hmem
      all_goals subst hmem
      all_goals rw [hp] at hfail
      all_goals cases hfail
      exact ⟨rfl, rfl⟩
  · intro data access perm shares err hmem hfail
    rcases createAccessGrant_cases up data with e | ⟨buckets, shares0, g0, perm0, _, _, hc⟩
    · rw [e] at hmem
      simp at hmem
    · rcases hc with ⟨err0, hp, e⟩ | ⟨a, err0, hp, hs, e⟩ | ⟨a, a', err0, hp, hs, hz, e⟩
          | ⟨a, a', d, hp, hs, hz, e⟩
      all_goals rw [e] at hmem ⊢
      all_goals simp at hmem
      all_goals obtain ⟨h1, h2, h3⟩ := hmem
      all_goals subst h1 h2 h3
      all_goals rw [hs] at hfail
      all_goals cases hfail
      exact ⟨rfl, rfl⟩
  · intro data access err hmem hfail
    rcases createAccessGrant_cases up data with e | ⟨buckets, shares0, g0, perm0, _, _, hc⟩
    · rw [e] at hmem
      simp at hmem
    · rcases hc with ⟨err0, hp, e⟩ | ⟨a, err0, hp, hs, e⟩ | ⟨a, a', err0, hp, hs, hz, e⟩
          | ⟨a, a', d, hp, hs, hz, e⟩
      all_goals rw [e] at hmem ⊢
      all_goals simp at hmem
      all_goals subst hmem
      all_goals rw [hz] at hfail
      all_goals cases hfail
      exact ⟨rfl, rfl⟩

/-- An unreachable registration service, and a credential engine refusing the
restriction: each gives one Error diagnostic with the upstream text, no identity and
no attribute. -/
theorem credentials_failClosed_witness :
    unreachableUplink.parseAccess sampleEdgeConfig.accessGrant = .ok "root"
    ∧ unreachableUplink.registerAccess sampleEdgeConfig.address "root"
        sampleEdgeConfig.allowPublicAccess = .error "dial tcp: connection refused"
    ∧ (createEdgeCredentials unreachableUplink sampleEdgeConfig.toData).exit
        = .returned [⟨.error, "Failed to create edge credentials.",
            "dial tcp: connection refused"⟩]
    ∧ (createEdgeCredentials unreachableUplink sampleEdgeConfig.toData).data.id = none
    ∧ (createEdgeCredentials unreachableUplink sampleEdgeConfig.toData).data.attrs = []
    ∧ Call.share "root" ⟨true, false, false, false⟩
          [⟨"photos", ""⟩, ⟨"logs", "2024/"⟩, ⟨"logs", "2025/"⟩]
        ∈ (createAccessGrant refusingUplink sampleGrantConfig.toData).calls
    ∧ (createAccessGrant refusingUplink sampleGrantConfig.toData).exit
        = .returned [⟨.error, "Failed to restrict provided access grant to new scope.",
            "permission is empty"⟩]
    ∧ (createAccessGrant refusingUplink sampleGrantConfig.toData).data
        = sampleGrantConfig.toData := by
  have hmem : Call.share "root" ⟨true, false, false, false⟩
        [⟨"photos", ""⟩, ⟨"logs", "2024/"⟩, ⟨"logs", "2025/"⟩]
      ∈ (createAccessGrant refusingUplink sampleGrantConfig.toData).calls :=
    List.Mem.tail _ (List.Mem.head _)
  have hedge := (credentials_failClosed unreachableUplink).2.2.2.1 sampleEdgeConfig "root"
    "dial tcp: connection refused" rfl rfl
  have hgrant := (credentials_failClosed refusingUplink).2.2.2.2.2.2.2.2.1
    sampleGrantConfig.toData "root" ⟨true, false, false, false⟩
    [⟨"photos", ""⟩, ⟨"logs", "2024/"⟩, ⟨"logs", "2025/"⟩] "permission is empty" hmem rfl
  exact ⟨rfl, rfl, hedge.1, hedge.2.1, hedge.2.2, hmem, hgrant.1, hgrant.2⟩

/-- The embedded hash on the one-block test vector `abc`. -/
theorem Sha256.sum256_abc :
    Sha256.sum256 (bytesOf "abc")
      = [0xba, 0x78, 0x16, 0xbf, 0x8f, 0x01, 0xcf, 0xea, 0x41, 0x41, 0x40, 0xde, 0x5d, 0xae,
         0x22, 0x23, 0xb0, 0x03, 0x61, 0xa3, 0x96, 0x17, 0x7a, 0x9c, 0xb4, 0x10, 0xff, 0x61,
         0xf2, 0x00, 0x15, 0xad] := by
  rfl

set_option maxRecDepth 100000 in
/-- The embedded hash on the two-block test vector of 56 bytes. -/
theorem Sha256.sum256_two_blocks :
    Sha256.sum256 (bytesOf "abcdbcdecdefdefgefghfghighijhijkijkljklmklmnlmnomnopnopq")
      = [0x24, 0x8d, 0x6a, 0x61, 0xd2, 0x06, 0x38, 0xb8, 0xe5, 0xc0, 0x26, 0x93, 0x0c, 0x3e,
         0x60, 0x39, 0xa3, 0x3c, 0xe4, 0x59, 0x64, 0xff, 0x21, 0x67, 0xf6, 0xec, 0xed, 0xd4,
         0x19, 0xdb, 0x06, 0xc1] := by
  rfl

/-- The embedded encoding on the test vectors of RFC 4648. -/
theorem Base64.encodeToString_vectors :
    Base64.encodeToString (bytesOf "") = ""
    ∧ Base64.encodeToString (bytesOf "f") = "Zg=="
    ∧ Base64.encodeToString (bytesOf "fo") = "Zm8="
    ∧ Base64.encodeToString (bytesOf "foo") = "Zm9v"
    ∧ Base64.encodeToString (bytesOf "foob") = "Zm9vYg=="
    ∧ Base64.encodeToString (bytesOf "fooba") = "Zm9vYmE="
    ∧ Base64.encodeToString (bytesOf "foobar") = "Zm9vYmFy" := by
  decide

/-- The embedded byte conversion on code points of one to four bytes. -/
theorem bytesOf_vectors :
    bytesOf (String.mk [Char.ofNat 0x61, Char.ofNat 0xe9, Char.ofNat 0x20ac, Char.ofNat 0x1f600])
      = [0x61, 0xc3, 0xa9, 0xe2, 0x82, 0xac, 0xf0, 0x9f, 0x98, 0x80] := by
  decide

/-- The digest is 32 bytes long. -/
theorem Sha256.sum256_length (msg : List Nat) : (Sha256.sum256 msg).length = 32 := by
  simp [Sha256.sum256, Sha256.be32]

/-- The padded encoding has four characters for every started group of three bytes. -/
theorem Base64.encode_length (bytes : List Nat) :
    (Base64.encode bytes).length = 4 * ((bytes.length + 2) / 3) := by
  induction bytes using Base64.encode.induct with
  | case1 b0 b1 b2 rest ih =>
    simp only [Base64.encode, List.length_cons, ih]
    omega
  | case2 b0 b1 => simp [Base64.encode]
  | case3 b0 => simp [Base64.encode]
  | case4 => simp [Base64.encode]

/-- The text encoding of a 32-byte digest has 44 characters. -/
theorem Base64.encodeToString_length_of_32 (bytes : List Nat) (h : bytes.length = 32) :
    (Base64.encodeToString bytes).length = 44 := by
  show (Base64.encode bytes).length = 44
  rw [Base64.encode_length, h]

/-- On every declared configuration whose bucket blocks are all present and for which
parse, restrict and serialize all succeed, with `d` the serialized restricted grant,
`createAccessGrant` returns no diagnostics, calls the restriction with the four
declared flags each in its own field and the declared scopes, writes
`derived_access_grant = d` and nothing else, and sets the identity to the standard
base64 text of the SHA-256 digest of the bytes of `d`; the digest has 32 bytes and the
identity 44 characters. -/
theorem createAccessGrant_success {A : Type} (up : Uplink A) (cfg : AccessGrantConfig)
    (access access' : A) (d : String)
    (hpresent : ∀ b ∈ cfg.buckets, b.present)
    (hparse : up.parseAccess cfg.accessGrant = .ok access)
    (hshare : up.share access
        ⟨cfg.allowDownload, cfg.allowUpload, cfg.allowList, cfg.allowDelete⟩
        (declaredScopes cfg.buckets) = .ok access')
    (hser : up.serialize access' = .ok d) :
    (createAccessGrant up cfg.toData).exit = .returned []
    ∧ (createAccessGrant up cfg.toData).calls
        = [.parseAccess cfg.accessGrant,
           .share access ⟨cfg.allowDownload, cfg.allowUpload, cfg.allowList, cfg.allowDelete⟩
             (declaredScopes cfg.buckets),
           .serialize access']
    ∧ (createAccessGrant up cfg.toData).data.attrs = [("derived_access_grant", .str d)]
    ∧ (createAccessGrant up cfg.toData).data.id
        = some (Base64.encodeToString (Sha256.sum256 (bytesOf d)))
    ∧ (Sha256.sum256 (bytesOf d)).length = 32
    ∧ (Base64.encodeToString (Sha256.sum256 (bytesOf d))).length = 44 := by
  have e := createAccessGrant_toData up cfg hpresent
  simp only [hparse, AccessGrantConfig.permission, hshare, hser] at e
  rw [e]
  exact ⟨rfl, rfl, rfl, rfl, Sha256.sum256_length _,
    Base64.encodeToString_length_of_32 _ (Sha256.sum256_length _)⟩

/-- The identity of the sample configuration, computed through the embedded hash and
encoding. -/
theorem createAccessGrant_success_witness :
    (∀ b ∈ sampleGrantConfig.buckets, b.present)
    ∧ sampleUplink.parseAccess sampleGrantConfig.accessGrant = .ok "root"
    ∧ sampleUplink.share "root" ⟨true, false, false, false⟩
        (declaredScopes sampleGrantConfig.buckets) = .ok "root+"
    ∧ sampleUplink.serialize "root+" = .ok "root+"
    ∧ (createAccessGrant sampleUplink sampleGrantConfig.toData).data.id
        = some "vQwh2k+KpVL/F6uf1y/+jYp7BZzeBi58po6AfdRlipo=" := by
  have hp : ∀ b ∈ sampleGrantConfig.buckets, b.present := by decide
  have h := createAccessGrant_success sampleUplink sampleGrantConfig "root" "root+" "root+"
    hp rfl rfl rfl
  refine ⟨hp, rfl, rfl, rfl, ?_⟩
  rw [h.2.2.2.1]
  rfl

/-- C3 (code at the failing input): on the configuration whose bucket `c` declares
the single path `""`, parse, restrict (with the declared flags and the declared scope
`{c, ""}`) and serialize all succeed and give `d = root+`, yet `createAccessGrant`
panics at `path.(string)` before parsing: it returns no diagnostics list, writes no
`derived_access_grant` and sets no identity. -/
theorem createAccessGrant_empty_path_no_identity :
    sampleUplink.parseAccess emptyPathGrantConfig.accessGrant = .ok "root"
    ∧ sampleUplink.share "root" ⟨true, false, false, false⟩ [⟨"c", ""⟩] = .ok "root+"
    ∧ sampleUplink.serialize "root+" = .ok "root+"
    ∧ emptyPathGrantConfig.permission = ⟨true, false, false, false⟩
    ∧ declaredScopes emptyPathGrantConfig.buckets = [⟨"c", ""⟩]
    ∧ (createAccessGrant sampleUplink emptyPathGrantConfig.toData).exit = .panicked
    ∧ (createAccessGrant sampleUplink emptyPathGrantConfig.toData).data.id = none
    ∧ (createAccessGrant sampleUplink emptyPathGrantConfig.toData).data.attrs = [] :=
  ⟨rfl, rfl, rfl, rfl, rfl, rfl, rfl, rfl⟩

/-- A code point is determined by its scalar value. -/
theorem char_eq_of_toNat_eq (a b : Char) (h : a.toNat = b.toNat) : a = b := by
  apply Char.ext
  apply UInt32.ext
  exact h

/-- The UTF-8 encoding is prefix-free. -/
theorem utf8EncodeNat_prefix (a b : Nat) (s t : List Nat)
    (h : utf8EncodeNat a ++ s = utf8EncodeNat b ++ t) : a = b ∧ s = t := by
  unfold utf8EncodeNat at h
  split_ifs at h <;> simp at h <;>
    refine ⟨by omega, by
      first | exact h.2 | exact h.2.2 | exact h.2.2.2 | exact h.2.2.2.2 | omega⟩

/-- Strings with the same bytes have the same characters. -/
theorem utf8_data_injective (s t : List Char)
    (h : (s.flatMap fun c => utf8EncodeNat c.toNat) = t.flatMap fun c => utf8EncodeNat c.toNat) :
    s = t := by
  induction s generalizing t with
  | nil =>
    cases t with
    | nil => rfl
    | cons c cs =>
      exfalso
      simp only [List.flatMap_nil, List.flatMap_cons] at h
      unfold utf8EncodeNat at h
      split_ifs at h <;> simp at h
  | cons c cs ih =>
    cases t with
    | nil =>
      exfalso
      simp only [List.flatMap_nil, List.flatMap_cons] at h
      unfold utf8EncodeNat at h
      split_ifs at h <;> simp at h
    | cons d ds =>
      simp only [List.flatMap_cons] at h
      obtain ⟨hcd, hrest⟩ := utf8EncodeNat_prefix _ _ _ _ h
      rw [char_eq_of_toNat_eq c d hcd, ih ds hrest]

/-- Go `[]byte(s)` is injective. -/
theorem bytesOf_injective (s t : String) (h : bytesOf s = bytesOf t) : s = t :=
  String.ext (utf8_data_injective s.data t.data h)

/-- A list is split uniquely at the first occurrence of a separator. -/
theorem split_at_separator {α : Type} (c : α) (r r' t t' : List α) (hr : c ∉ r)
    (hr' : c ∉ r') (h : r ++ c :: t = r' ++ c :: t') : r = r' ∧ t = t' := by
  induction r generalizing r' with
  | nil =>
    cases r' with
    | nil => simpa using h
    | cons x xs =>
      simp at h
      exact absurd (List.mem_cons.mpr (Or.inl h.1)) hr'
  | cons y ys ih =>
    cases r' with
    | nil =>
      simp at h
      exact absurd (List.mem_cons.mpr (Or.inl h.1.symm)) hr
    | cons x xs =>
      simp at h
      have hrec := ih xs (fun hm => hr (List.mem_cons_of_mem _ hm))
        (fun hm => hr' (List.mem_cons_of_mem _ hm)) h.2
      exact ⟨by rw [h.1, hrec.1], hrec.2⟩

/-- A list is split uniquely at the last occurrence of a separator. -/
theorem split_at_last_separator {α : Type} (c : α) (r r' t t' : List α) (ht : c ∉ t)
    (ht' : c ∉ t') (h : r ++ c :: t = r' ++ c :: t') : r = r' ∧ t = t' := by
  have hrev : t.reverse ++ c :: r.reverse = t'.reverse ++ c :: r'.reverse := by
    have := congrArg List.reverse h
    simpa using this
  have hs := split_at_separator c t.reverse t'.reverse r.reverse r'.reverse
    (by simpa using ht) (by simpa using ht') hrev
  exact ⟨List.reverse_injective hs.2, List.reverse_injective hs.1⟩

/-- The characters of the identity string. -/
theorem identityString_data (r e k x : String) :
    (identityString r e k x).data
      = r.data ++ '.' :: (e.data ++ '.' :: (k.data ++ '.' :: x.data)) := by
  simp [identityString, String.data_append]

/-- The identity string determines its four components when the access grant, the
access key and the secret key hold no separator. -/
theorem identityString_injective (r e k x r' e' k' x' : String)
    (hr : '.' ∉ r.data) (hk : '.' ∉ k.data) (hx : '.' ∉ x.data)
    (hr' : '.' ∉ r'.data) (hk' : '.' ∉ k'.data) (hx' : '.' ∉ x'.data)
    (h : identityString r e k x = identityString r' e' k' x') :
    r = r' ∧ e = e' ∧ k = k' ∧ x = x' := by
  have hd := congrArg String.data h
  rw [identityString_data, identityString_data] at hd
  obtain ⟨h1, hd1⟩ := split_at_separator '.' _ _ _ _ hr hr' hd
  have hd2 : (e.data ++ '.' :: k.data) ++ '.' :: x.data
      = (e'.data ++ '.' :: k'.data) ++ '.' :: x'.data := by
    simpa using hd1
  obtain ⟨hd3, h4⟩ := split_at_last_separator '.' _ _ _ _ hx hx' hd2
  obtain ⟨h2, h3⟩ := split_at_last_separator '.' _ _ _ _ hk hk' hd3
  exact ⟨String.ext h1, String.ext h2, String.ext h3, String.ext h4⟩

/-- The identity string changes when exactly one component changes. -/
theorem identityString_one_component (r e k x r' e' k' x' : String)
    (hthree : (e = e' ∧ k = k' ∧ x = x') ∨ (r = r' ∧ k = k' ∧ x = x')
      ∨ (r = r' ∧ e = e' ∧ x = x') ∨ (r = r' ∧ e = e' ∧ k = k'))
    (h : identityString r e k x = identityString r' e' k' x') :
    r = r' ∧ e = e' ∧ k = k' ∧ x = x' := by
  have hd := congrArg String.data h
  rw [identityString_data, identityString_data] at hd
  rcases hthree with ⟨h2, h3, h4⟩ | ⟨h1, h3, h4⟩ | ⟨h1, h2, h4⟩ | ⟨h1, h2, h3⟩
  · subst h2 h3 h4
    exact ⟨String.ext (List.append_cancel_right hd), rfl, rfl, rfl⟩
  · subst h1 h3 h4
    have hd1 := List.append_cancel_left hd
    have hd2 : e.data ++ ('.' :: (k.data ++ '.' :: x.data))
        = e'.data ++ ('.' :: (k.data ++ '.' :: x.data)) := by simpa using hd1
    exact ⟨rfl, String.ext (List.append_cancel_right hd2), rfl, rfl⟩
  · subst h1 h2 h4
    have hd1 : (r.data ++ '.' :: (e.data ++ ['.'])) ++ (k.data ++ '.' :: x.data)
        = (r.data ++ '.' :: (e.data ++ ['.'])) ++ (k'.data ++ '.' :: x.data) := by
      simpa using hd
    have hd2 := List.append_cancel_left hd1
    exact ⟨rfl, rfl, String.ext (List.append_cancel_right hd2), rfl⟩
  · subst h1 h2 h3
    have hd1 : (r.data ++ '.' :: (e.data ++ '.' :: (k.data ++ ['.']))) ++ x.data
        = (r.data ++ '.' :: (e.data ++ '.' :: (k.data ++ ['.']))) ++ x'.data := by
      simpa using hd
    exact ⟨rfl, rfl, rfl, String.ext (List.append_cancel_left hd1)⟩

/-- C4 (as stated, refuted): two credential bundles that differ in endpoint and access
key are hashed from the same byte string, and `createEdgeCredentials` gives both the
same identity for the same access grant. -/
theorem identityString_collision :
    (("grant", "https://gw.example", "com.ak", "sk") : String × String × String × String)
        ≠ ("grant", "https://gw.example.com", "ak", "sk")
    ∧ bytesOf (identityString "grant" "https://gw.example" "com.ak" "sk")
        = bytesOf (identityString "grant" "https://gw.example.com" "ak" "sk")
    ∧ (createEdgeCredentials (answeringUplink ⟨"com.ak", "sk", "https://gw.example"⟩)
          (EdgeCredentialsConfig.toData ⟨"grant", false, ""⟩)).data.id
        = (createEdgeCredentials (answeringUplink ⟨"ak", "sk", "https://gw.example.com"⟩)
          (EdgeCredentialsConfig.toData ⟨"grant", false, ""⟩)).data.id :=
  ⟨by decide, rfl, rfl⟩

/-- C4 (amended): when the access grant parses and the registration answers, the
identity set by `createEdgeCredentials` is the digest of the bytes of
`root.endpoint.accessKey.secretKey`, the four values joined by dots.  For two tuples
that differ in at least one component these byte strings are different whenever the
root credential, the access key and the secret key of both tuples hold no dot, and
also whenever the two tuples differ in one component only. -/
theorem identityString_changes {A : Type} :
    (∀ (up : Uplink A) (cfg : EdgeCredentialsConfig) access credentials,
        up.parseAccess cfg.accessGrant = .ok access →
        up.registerAccess cfg.address access cfg.allowPublicAccess = .ok credentials →
        (createEdgeCredentials up cfg.toData).data.id
          = some (Base64.encodeToString (Sha256.sum256 (bytesOf
              (cfg.accessGrant ++ "." ++ credentials.endpoint ++ "."
                ++ credentials.accessKeyID ++ "." ++ credentials.secretKey)))))
    ∧ (∀ r e k x r' e' k' x' : String,
        '.' ∉ r.data → '.' ∉ k.data → '.' ∉ x.data →
        '.' ∉ r'.data → '.' ∉ k'.data → '.' ∉ x'.data →
        (r, e, k, x) ≠ (r', e', k', x') →
        bytesOf (identityString r e k x) ≠ bytesOf (identityString r' e' k' x'))
    ∧ (∀ r e k x r' e' k' x' : String,
        ((e = e' ∧ k = k' ∧ x = x') ∨ (r = r' ∧ k = k' ∧ x = x')
          ∨ (r = r' ∧ e = e' ∧ x = x') ∨ (r = r' ∧ e = e' ∧ k = k')) →
        (r, e, k, x) ≠ (r', e', k', x') →
        bytesOf (identityString r e k x) ≠ bytesOf (identityString r' e' k' x')) := by
  refine ⟨?_, ?_, ?_⟩
  · intro up cfg access credentials h1 h2
    have e := createEdgeCredentials_toData up cfg
    simp only [h1, h2] at e
    rw [e]
    rfl
  · intro r e k x r' e' k' x' hr hk hx hr' hk' hx' hne hbytes
    obtain ⟨h1, h2, h3, h4⟩ := identityString_injective r e k x r' e' k' x' hr hk hx hr' hk'
      hx' (bytesOf_injective _ _ hbytes)
    exact hne (by rw [h1, h2, h3, h4])
  · intro r e k x r' e' k' x' hthree hne hbytes
    obtain ⟨h1, h2, h3, h4⟩ := identityString_one_component r e k x r' e' k' x' hthree
      (bytesOf_injective _ _ hbytes)
    exact hne (by rw [h1, h2, h3, h4])

/-- Two tuples without dots in grant, access key and secret key, differing in endpoint
and access key, are hashed from different bytes. -/
theorem identityString_changes_witness :
    '.' ∉ "grant".data ∧ '.' ∉ "ak".data ∧ '.' ∉ "sk".data ∧ '.' ∉ "ak2".data
    ∧ (("grant", "https://gw.example.com", "ak", "sk") : String × String × String × String)
        ≠ ("grant", "https://gw.example.org", "ak2", "sk")
    ∧ bytesOf (identityString "grant" "https://gw.example.com" "ak" "sk")
        ≠ bytesOf (identityString "grant" "https://gw.example.org" "ak2" "sk") :=
  ⟨by decide, by decide, by decide, by decide, by decide,
    (identityString_changes (A := String)).2.1 "grant" "https://gw.example.com" "ak" "sk"
      "grant" "https://gw.example.org" "ak2" "sk" (by decide) (by decide) (by decide)
      (by decide) (by decide) (by decide) (by decide)⟩

/-- C5 (as stated, refuted): given a bucket list holding a block with an empty name
and one path, `createAccessGrant` itself reports nothing: it hands the scope with the
empty bucket name to the restriction step and completes. -/
theorem createAccessGrant_empty_name :
    emptyNameGrantConfig.buckets = [⟨"", ["2024/"]⟩]
    ∧ emptyNameGrantConfig.toData.get "bucket"
        = some (.list [.map [("name", .str ""), ("paths", .list [.str "2024/"])]])
    ∧ (createAccessGrant sampleUplink emptyNameGrantConfig.toData).exit = .returned []
    ∧ shareArgs (createAccessGrant sampleUplink emptyNameGrantConfig.toData).calls
        = [[⟨"", "2024/"⟩]] := by
  have hp : ∀ b ∈ emptyNameGrantConfig.buckets, b.present := by decide
  refine ⟨rfl, rfl, ?_, ?_⟩
  · rw [createAccessGrant_toData _ _ hp]
    rfl
  · rw [createAccessGrant_toData _ _ hp]
    rfl

/-- The name validator flags every list of bucket blocks that holds an empty name. -/
theorem validateBucketNames_ne_nil (n : Nat) (buckets : List BucketDecl)
    (h : ∃ b ∈ buckets, b.name = "") : validateBucketNames n buckets ≠ [] := by
  induction buckets generalizing n with
  | nil =>
    obtain ⟨b, hb, _⟩ := h
    simp at hb
  | cons b rest ih =>
    have hrun : runValidateFuncAt AccessGrantBucketSchema "name"
        ("bucket." ++ toString n ++ ".name") b.name
        = noZeroValues b.name ("bucket." ++ toString n ++ ".name") := rfl
    by_cases hname : b.name = ""
    · intro hnil
      simp only [validateBucketNames, List.append_eq_nil] at hnil
      have hhead := hnil.1
      rw [hrun] at hhead
      simp [noZeroValues, hname] at hhead
    · have hrest : ∃ c ∈ rest, c.name = "" := by
        obtain ⟨c, hc, hcn⟩ := h
        rcases List.mem_cons.mp hc with hh | hh
        · exact absurd (hh ▸ hcn) hname
        · exact ⟨c, hh, hcn⟩
      intro hnil
      simp only [validateBucketNames, List.append_eq_nil] at hnil
      exact ih (n + 1) hrest hnil.2

/-- The validators flag every configuration whose bucket list holds an empty name. -/
theorem validateAccessGrant_ne_nil (cfg : AccessGrantConfig)
    (h : ∃ b ∈ cfg.buckets, b.name = "") : validateAccessGrant cfg ≠ [] := by
  intro hnil
  simp only [validateAccessGrant, List.append_eq_nil] at hnil
  exact validateBucketNames_ne_nil 0 cfg.buckets h hnil.2

/-- Every diagnostic of a declared `ValidateFunc` has severity Error. -/
theorem runValidateFunc_severity (schema : List (String × FieldSchema)) (k i : String) :
    ∀ d ∈ runValidateFunc schema k i, d.severity = .error := by
  intro d hd
  unfold runValidateFunc at hd
  split at hd
  · split_ifs at hd
    · unfold noZeroValues at hd
      split_ifs at hd <;> simp at hd
      rw [hd]
    · simp at hd
  · simp at hd

/-- Every diagnostic of a `ValidateFunc` declared in a nested schema has severity
Error. -/
theorem runValidateFuncAt_severity (schema : List (String × FieldSchema))
    (k path i : String) : ∀ d ∈ runValidateFuncAt schema k path i, d.severity = .error := by
  intro d hd
  unfold runValidateFuncAt at hd
  split at hd
  · split_ifs at hd
    · unfold noZeroValues at hd
      split_ifs at hd <;> simp at hd
      rw [hd]
    · simp at hd
  · simp at hd

/-- Every diagnostic of the name validator has severity Error. -/
theorem validateBucketNames_severity (n : Nat) (buckets : List BucketDecl) :
    ∀ d ∈ validateBucketNames n buckets, d.severity = .error := by
  induction buckets generalizing n with
  | nil =>
    intro d hd
    simp [validateBucketNames] at hd
  | cons b rest ih =>
    intro d hd
    simp only [validateBucketNames, List.mem_append] at hd
    rcases hd with hd | hd
    · exact runValidateFuncAt_severity _ _ _ _ d hd
    · exact ih (n + 1) d hd

/-- Every diagnostic of the declared validators has severity Error. -/
theorem validateAccessGrant_severity (cfg : AccessGrantConfig) :
    ∀ d ∈ validateAccessGrant cfg, d.severity = .error := by
  intro d hd
  simp only [validateAccessGrant, List.mem_append] at hd
  rcases hd with hd | hd
  · exact runValidateFunc_severity _ _ _ d hd
  · exact validateBucketNames_severity 0 cfg.buckets d hd

/-- Every declared scope carries the name of a declared bucket. -/
theorem declaredScopes_bucket (buckets : List BucketDecl) (s : SharePrefix)
    (hs : s ∈ declaredScopes buckets) : ∃ b ∈ buckets, s.bucket = b.name := by
  simp only [declaredScopes, List.mem_flatMap] at hs
  obtain ⟨b, hb, hsb⟩ := hs
  refine ⟨b, hb, ?_⟩
  unfold scopesOfBucket at hsb
  split_ifs at hsb
  · simp at hsb
    rw [hsb]
  · simp only [List.mem_map] at hsb
    obtain ⟨p, _, hp⟩ := hsb
    rw [← hp]

/-- Every scope the inner loop adds carries the given bucket name. -/
theorem appendPaths_bucket (name : String) (paths : List Value)
    (shares result : List SharePrefix) (h : appendPaths name paths shares = some result) :
    ∀ s ∈ result, s ∈ shares ∨ s.bucket = name := by
  induction paths generalizing shares with
  | nil =>
    simp only [appendPaths, Option.some.injEq] at h
    subst h
    exact fun s hs => Or.inl hs
  | cons v rest ih =>
    simp only [appendPaths] at h
    cases hv : asString (some v) with
    | none => simp [hv] at h
    | some p =>
      simp only [hv] at h
      intro s hs
      rcases ih _ h s hs with h1 | h1
      · rcases List.mem_append.mp h1 with h2 | h2
        · exact Or.inl h2
        · simp only [List.mem_singleton] at h2
          exact Or.inr (by rw [h2])
      · exact Or.inr h1

/-- One turn of the outer loop on a block that reaches it as a map. -/
theorem appendBuckets_cons_map (name : String) (paths rest : List Value)
    (shares : List SharePrefix) :
    appendBuckets (.map [("name", .str name), ("paths", .list paths)] :: rest) shares
      = if paths.length = 0 then appendBuckets rest (shares ++ [⟨name, ""⟩])
        else match appendPaths name paths shares with
          | none => none
          | some shares' => appendBuckets rest shares' := by
  have h1 : asString (List.lookup "name" [("name", Value.str name), ("paths", Value.list paths)])
      = some name := rfl
  have h2 : asList (List.lookup "paths" [("name", Value.str name), ("paths", Value.list paths)])
      = some paths := rfl
  simp only [appendBuckets, asMap, h1, h2]

/-- Every scope the outer loop adds on declared blocks carries the name of a declared
bucket. -/
theorem appendBuckets_bucket (buckets : List BucketDecl) (shares result : List SharePrefix)
    (h : appendBuckets (buckets.map BucketDecl.toValue) shares = some result) :
    ∀ s ∈ result, s ∈ shares ∨ ∃ b ∈ buckets, s.bucket = b.name := by
  induction buckets generalizing shares with
  | nil =>
    simp only [List.map_nil, appendBuckets, Option.some.injEq] at h
    subst h
    exact fun s hs => Or.inl hs
  | cons b rest ih =>
    by_cases hzero : b.name = "" ∧ b.paths = []
    · simp [appendBuckets, BucketDecl.toValue, hzero, asMap] at h
    · have hval : b.toValue
          = .map [("name", .str b.name), ("paths", .list (b.paths.map pathValue))] := by
        unfold BucketDecl.toValue
        rw [if_neg hzero]
      simp only [List.map_cons, hval, appendBuckets_cons_map] at h
      have hlift : ∀ mid : List SharePrefix,
          (∀ s ∈ mid, s ∈ shares ∨ s.bucket = b.name) →
          appendBuckets (rest.map BucketDecl.toValue) mid = some result →
          ∀ s ∈ result, s ∈ shares ∨ ∃ c ∈ b :: rest, s.bucket = c.name := by
        intro mid hmid hrec s hs
        rcases ih _ hrec s hs with h1 | ⟨c, hc, hcn⟩
        · rcases hmid s h1 with h2 | h2
          · exact Or.inl h2
          · exact Or.inr ⟨b, List.mem_cons_self _ _, h2⟩
        · exact Or.inr ⟨c, List.mem_cons_of_mem _ hc, hcn⟩
      split_ifs at h with hlen
      · refine hlift _ ?_ h
        intro s hs
        rcases List.mem_append.mp hs with h2 | h2
        · exact Or.inl h2
        · simp only [List.mem_singleton] at h2
          exact Or.inr (by rw [h2])
      · cases hp : appendPaths b.name (b.paths.map pathValue) shares with
        | none => simp [hp] at h
        | some mid =>
          simp only [hp] at h
          exact hlift mid (appendPaths_bucket _ _ _ _ hp) h

/-- Every scope list `createAccessGrant` hands to the restriction step on a declared
configuration was built by its loops from the declared blocks. -/
theorem createAccessGrant_shareArgs {A : Type} (up : Uplink A) (cfg : AccessGrantConfig)
    (shares : List SharePrefix)
    (h : shares ∈ shareArgs (createAccessGrant up cfg.toData).calls) :
    appendBuckets (cfg.buckets.map BucketDecl.toValue) [] = some shares := by
  rcases createAccessGrant_cases up cfg.toData with e | ⟨buckets, built, g, perm, hb, happ, hc⟩
  · rw [e] at h
    simp [shareArgs] at h
  · rw [toData_get_bucket] at hb
    simp only [asList, Option.some.injEq] at hb
    subst hb
    rcases hc with ⟨err, _, e⟩ | ⟨a, err, _, _, e⟩ | ⟨a, a', err, _, _, _, e⟩
        | ⟨a, a', d, _, _, _, e⟩
    all_goals rw [e] at h
    all_goals simp [shareArgs] at h
    all_goals subst h
    all_goals exact happ

/-- C5 (amended): for every declared bucket list that holds a bucket whose name is the
empty string, the validator declared for `name` reports an error, so the host's
validated create returns that error without calling `createAccessGrant`: no
collaborator is called, the restriction step included, and no identity is set.  On
every configuration the validated create hands to the restriction step, no scope has
an empty bucket name. -/
theorem validatedCreateAccessGrant_empty_name {A : Type} (up : Uplink A)
    (cfg : AccessGrantConfig) :
    ((∃ b ∈ cfg.buckets, b.name = "") →
        (∃ errors, errors ≠ [] ∧ (∀ d ∈ errors, d.severity = .error)
          ∧ (validatedCreateAccessGrant up cfg).exit = .returned errors)
        ∧ (validatedCreateAccessGrant up cfg).calls = []
        ∧ (validatedCreateAccessGrant up cfg).data.id = none)
    ∧ (∀ shares ∈ shareArgs (validatedCreateAccessGrant up cfg).calls,
        ∀ s ∈ shares, s.bucket ≠ "") := by
  refine ⟨?_, ?_⟩
  · intro hempty
    have hne := validateAccessGrant_ne_nil cfg hempty
    have hsev := validateAccessGrant_severity cfg
    unfold validatedCreateAccessGrant
    cases hv : validateAccessGrant cfg with
    | nil => exact absurd hv hne
    | cons d ds =>
      rw [hv] at hsev
      exact ⟨⟨d :: ds, by simp, hsev, rfl⟩, rfl, rfl⟩
  · intro shares hshares s hs
    unfold validatedCreateAccessGrant at hshares
    cases hv : validateAccessGrant cfg with
    | nil =>
      rw [hv] at hshares
      simp only at hshares
      have hbuilt := createAccessGrant_shareArgs up cfg shares hshares
      rcases appendBuckets_bucket cfg.buckets [] shares hbuilt s hs with h0 | ⟨b, hb, hname⟩
      · simp at h0
      · rw [hname]
        intro hbn
        exact validateAccessGrant_ne_nil cfg ⟨b, hb, hbn⟩ hv
    | cons d ds =>
      rw [hv] at hshares
      simp [shareArgs] at hshares

/-- The validated create on a bucket block with an empty name: the validation error,
named by the attribute path, and an empty call log. -/
theorem validatedCreateAccessGrant_empty_name_witness :
    (∃ b ∈ emptyNameGrantConfig.buckets, b.name = "")
    ∧ (validatedCreateAccessGrant sampleUplink emptyNameGrantConfig).exit
        = .returned [⟨.error, "bucket.0.name must not be empty, got ", ""⟩]
    ∧ (validatedCreateAccessGrant sampleUplink emptyNameGrantConfig).calls = [] := by
  have hex : ∃ b ∈ emptyNameGrantConfig.buckets, b.name = "" :=
    ⟨⟨"", ["2024/"]⟩, by decide, rfl⟩
  have h := (validatedCreateAccessGrant_empty_name sampleUplink emptyNameGrantConfig).1 hex
  exact ⟨hex, by decide, h.2.1⟩

/-- On an error-free listing the loop of `readObjects` appends keys until the count
equals `maxKeys`, which never happens once the count has passed it. -/
theorem collectKeys_errorFree (maxKeys : Int) (steps : List IterStep) (keys : List String)
    (hfree : ∀ step ∈ steps, step.err = none) :
    collectKeys maxKeys steps keys
      = .ok (if (keys.length : Int) < maxKeys
          then keys ++ (steps.map IterStep.key).take (maxKeys.toNat - keys.length)
          else keys ++ steps.map IterStep.key) := by
  induction steps generalizing keys with
  | nil => simp [collectKeys]
  | cons step rest ih =>
    have hstep : step.err = none := hfree step (List.mem_cons_self _ _)
    have hrest : ∀ s ∈ rest, s.err = none := fun s hs => hfree s (List.mem_cons_of_mem _ hs)
    simp only [collectKeys, hstep]
    have hlen : (keys ++ [step.key]).length = keys.length + 1 := by simp
    by_cases heq : ((keys ++ [step.key]).length : Int) = maxKeys
    · have hone : maxKeys.toNat - keys.length = 1 := by
        rw [hlen] at heq
        omega
      have hlt : (keys.length : Int) < maxKeys := by
        rw [hlen] at heq
        omega
      rw [if_pos heq, if_pos hlt, hone]
      simp
    · rw [if_neg heq, ih (keys ++ [step.key]) hrest]
      by_cases hlt : (keys.length : Int) < maxKeys
      · have hlt' : ((keys ++ [step.key]).length : Int) < maxKeys := by
          rw [hlen] at heq ⊢
          omega
        obtain ⟨n, hn⟩ : ∃ n, maxKeys.toNat - keys.length = n + 1 :=
          ⟨maxKeys.toNat - keys.length - 1, by omega⟩
        have hn' : maxKeys.toNat - (keys ++ [step.key]).length = n := by
          rw [hlen]
          omega
        rw [if_pos hlt', if_pos hlt, hn, hn']
        simp
      · have hlt' : ¬ ((keys ++ [step.key]).length : Int) < maxKeys := by
          rw [hlen]
          omega
        rw [if_neg hlt', if_neg hlt]
        simp

/-- Once the project opens and the four reads succeed, `readObjects` is the listing
loop followed by `SetId` and `Set`. -/
theorem readObjects_reads {A : Type} (st : Storage A) (access : A) (data : ResourceData)
    (bucket pfx : String) (maxKeys : Int) (startAfter : String)
    (hopen : st.openProject access = .ok ())
    (hb : asString (data.get "bucket") = some bucket)
    (hp : asString (data.get "prefix") = some pfx)
    (hk : asInt (data.get "max_keys") = some maxKeys)
    (hc : asString (data.get "start_after") = some startAfter) :
    readObjects st access data =
      match collectKeys maxKeys (st.listObjects bucket ⟨pfx, startAfter, true⟩).steps [] with
      | .error err =>
        ⟨.returned [⟨.error, "Failed to iterate object", err⟩], data,
          [.openProject access, .listObjects bucket ⟨pfx, startAfter, true⟩, .closeProject]⟩
      | .ok keys =>
        ⟨.returned [], (data.setId bucket).set "keys" (.list (keys.map .str)),
          [.openProject access, .listObjects bucket ⟨pfx, startAfter, true⟩, .closeProject]⟩ := by
  simp only [readObjects, hopen, hb, hp, hk, hc]

/-- C6 (as stated, refuted): with `max_keys = 0` and an error-free listing of two keys,
`readObjects` sets `keys` to both keys, not to the first zero keys. -/
theorem readObjects_maxKeys_zero :
    (readObjects (scriptedStorage ⟨[⟨none, "a"⟩, ⟨none, "b"⟩], none⟩ (.ok ()) (.ok ()) (.ok ()))
        "root" (listingData "photos" "" 0 "")).data.attrs
      = [("keys", .list [.str "a", .str "b"])]
    ∧ (0 : Int) < ([⟨none, "a"⟩, ⟨none, "b"⟩] : List IterStep).length
    ∧ (readObjects (scriptedStorage ⟨[⟨none, "a"⟩, ⟨none, "b"⟩], none⟩ (.ok ()) (.ok ()) (.ok ()))
        "root" (listingData "photos" "" 0 "")).data.attrs
      ≠ [("keys", .list (((([⟨none, "a"⟩, ⟨none, "b"⟩] : List IterStep).map
          IterStep.key).take (0 : Int).toNat).map .str))] := by
  have hattrs : (readObjects (scriptedStorage ⟨[⟨none, "a"⟩, ⟨none, "b"⟩], none⟩ (.ok ()) (.ok ())
      (.ok ())) "root" (listingData "photos" "" 0 "")).data.attrs
      = [("keys", .list [.str "a", .str "b"])] := rfl
  refine ⟨hattrs, by decide, ?_⟩
  rw [hattrs]
  intro h
  simp at h

/-- C6 (amended): whenever `readObjects` gets as far as the listing (the project opens
and its reads of `bucket`, `prefix`, `max_keys` and `start_after` succeed), for every
`max_keys = k` and every error-free listing yielding `m` keys it returns no
diagnostics, sets the identity to the bucket and sets `keys`, in iteration order, to
the first `k` keys when `k ≥ 1` and `m > k`, to all `m` keys when `k ≥ 1` and `m ≤ k`,
and to all `m` keys when `k ≤ 0` (an unset `max_keys` reads as `0`). -/
theorem readObjects_keys {A : Type} (st : Storage A) (access : A) (data : ResourceData)
    (bucket pfx : String) (k : Int) (startAfter : String)
    (hopen : st.openProject access = .ok ())
    (hb : asString (data.get "bucket") = some bucket)
    (hp : asString (data.get "prefix") = some pfx)
    (hk : asInt (data.get "max_keys") = some k)
    (hc : asString (data.get "start_after") = some startAfter)
    (hfree : ∀ step ∈ (st.listObjects bucket ⟨pfx, startAfter, true⟩).steps, step.err = none)
    (_hfinal : (st.listObjects bucket ⟨pfx, startAfter, true⟩).finalErr = none) :
    (readObjects st access data).exit = .returned []
    ∧ (readObjects st access data).data.id = some bucket
    ∧ (1 ≤ k →
        k < ((st.listObjects bucket ⟨pfx, startAfter, true⟩).steps.length : Int) →
        (readObjects st access data).data.attrs
          = data.attrs ++ [("keys", .list ((((st.listObjects bucket
              ⟨pfx, startAfter, true⟩).steps.map IterStep.key).take k.toNat).map .str))])
    ∧ (1 ≤ k →
        ((st.listObjects bucket ⟨pfx, startAfter, true⟩).steps.length : Int) ≤ k →
        (readObjects st access data).data.attrs
          = data.attrs ++ [("keys", .list (((st.listObjects bucket
              ⟨pfx, startAfter, true⟩).steps.map IterStep.key).map .str))])
    ∧ (k ≤ 0 →
        (readObjects st access data).data.attrs
          = data.attrs ++ [("keys", .list (((st.listObjects bucket
              ⟨pfx, startAfter, true⟩).steps.map IterStep.key).map .str))]) := by
  have e := readObjects_reads st access data bucket pfx k startAfter hopen hb hp hk hc
  rw [collectKeys_errorFree k _ [] hfree] at e
  simp only [List.length_nil, List.nil_append, Nat.sub_zero] at e
  rw [e]
  refine ⟨rfl, rfl, ?_, ?_, ?_⟩
  · intro h1 _
    have hlt : ((0 : Nat) : Int) < k := by omega
    simp only [if_pos hlt]
    rfl
  · intro h1 hm
    have hlt : ((0 : Nat) : Int) < k := by omega
    have htake : ((st.listObjects bucket ⟨pfx, startAfter, true⟩).steps.map IterStep.key).take
        k.toNat = (st.listObjects bucket ⟨pfx, startAfter, true⟩).steps.map IterStep.key := by
      apply List.take_of_length_le
      rw [List.length_map]
      omega
    simp only [if_pos hlt, htake]
    rfl
  · intro h0
    have hlt : ¬ ((0 : Nat) : Int) < k := by omega
    simp only [if_neg hlt]
    rfl

/-- With `max_keys = 2` and three listed keys, `keys` is set to the first two. -/
theorem readObjects_keys_witness :
    (readObjects (scriptedStorage ⟨[⟨none, "a"⟩, ⟨none, "b"⟩, ⟨none, "c"⟩], none⟩
        (.ok ()) (.ok ()) (.ok ())) "root" (listingData "photos" "" 2 "")).data.attrs
      = [("keys", .list [.str "a", .str "b"])] :=
  (readObjects_keys (scriptedStorage ⟨[⟨none, "a"⟩, ⟨none, "b"⟩, ⟨none, "c"⟩], none⟩
      (.ok ()) (.ok ()) (.ok ())) "root" (listingData "photos" "" 2 "") "photos" "" 2 ""
      rfl rfl rfl rfl rfl (by decide) rfl).2.2.1 (by decide) (by decide)

/-- C7 (code at the failing input): the listing yields the key `a` and then `Next()`
returns `false` with `Err()` set, before `max_keys = 10` keys are gathered;
`readObjects` returns no diagnostics and sets the identity and `keys = [a]`. -/
theorem readObjects_final_error_swallowed :
    (scriptedStorage ⟨[⟨none, "a"⟩], some "connection reset"⟩ (.ok ()) (.ok ())
        (.ok ())).listObjects "photos" ⟨"", "", true⟩
      = ⟨[⟨none, "a"⟩], some "connection reset"⟩
    ∧ (readObjects (scriptedStorage ⟨[⟨none, "a"⟩], some "connection reset"⟩ (.ok ()) (.ok ())
        (.ok ())) "root" (listingData "photos" "" 10 "")).exit = .returned []
    ∧ (readObjects (scriptedStorage ⟨[⟨none, "a"⟩], some "connection reset"⟩ (.ok ()) (.ok ())
        (.ok ())) "root" (listingData "photos" "" 10 "")).data.id = some "photos"
    ∧ (readObjects (scriptedStorage ⟨[⟨none, "a"⟩], some "connection reset"⟩ (.ok ()) (.ok ())
        (.ok ())) "root" (listingData "photos" "" 10 "")).data.attrs
      = [("keys", .list [.str "a"])] :=
  ⟨rfl, rfl, rfl, rfl⟩

/-- C10 (code on every configuration of the data source): `ObjectListKind` declares
`bucket`, `prefix`, `max_keys`, `start_offset` and `keys`, so the read of
`start_after` at line 159 yields `nil` on the data of every configuration; whenever
the project opens `readObjects` panics, and it never calls the storage listing. -/
theorem readObjects_start_after {A : Type} (st : Storage A) (access : A)
    (config : List (String × Value)) :
    ObjectListKind.map Prod.fst = ["bucket", "prefix", "max_keys", "start_offset", "keys"]
    ∧ (ResourceData.ofConfig ObjectListKind config).get "start_after" = none
    ∧ (st.openProject access = .ok () →
        (readObjects st access (ResourceData.ofConfig ObjectListKind config)).exit = .panicked)
    ∧ (∀ bucket options, Call.listObjects bucket options
        ∉ (readObjects st access (ResourceData.ofConfig ObjectListKind config)).calls) := by
  have hget : (ResourceData.ofConfig ObjectListKind config).get "start_after" = none := rfl
  have hsa : asString ((ResourceData.ofConfig ObjectListKind config).get "start_after")
      = none := by
    rw [hget]
    rfl
  refine ⟨rfl, hget, ?_, ?_⟩
  · intro hopen
    unfold readObjects
    simp only [hopen, hsa]
    cases h1 : asString ((ResourceData.ofConfig ObjectListKind config).get "bucket") with
    | none => rfl
    | some bucket =>
      cases h2 : asString ((ResourceData.ofConfig ObjectListKind config).get "prefix") with
      | none => rfl
      | some pfx =>
        cases h3 : asInt ((ResourceData.ofConfig ObjectListKind config).get "max_keys") with
        | none => rfl
        | some maxKeys => rfl
  · intro bucket options
    unfold readObjects
    simp only [hsa]
    cases h0 : st.openProject access with
    | error err => simp
    | ok u =>
      cases h1 : asString ((ResourceData.ofConfig ObjectListKind config).get "bucket") with
      | none => simp
      | some bucket =>
        cases h2 : asString ((ResourceData.ofConfig ObjectListKind config).get "prefix") with
        | none => simp
        | some pfx =>
          cases h3 : asInt ((ResourceData.ofConfig ObjectListKind config).get "max_keys") with
          | none => simp
          | some maxKeys => simp

/-- On the data of a configuration of the data source with the project opening,
`readObjects` panics. -/
theorem readObjects_start_after_witness :
    (scriptedStorage ⟨[⟨none, "a"⟩], none⟩ (.ok ()) (.ok ()) (.ok ())).openProject "root"
      = .ok ()
    ∧ (readObjects (scriptedStorage ⟨[⟨none, "a"⟩], none⟩ (.ok ()) (.ok ()) (.ok ())) "root"
        (ResourceData.ofConfig ObjectListKind
          [("bucket", .str "photos"), ("start_offset", .str "a")])).exit = .panicked :=
  ⟨rfl, (readObjects_start_after (scriptedStorage ⟨[⟨none, "a"⟩], none⟩ (.ok ()) (.ok ())
      (.ok ())) "root" [("bucket", .str "photos"), ("start_offset", .str "a")]).2.2.1 rfl⟩

/-- The metadata loop returns the declared string map. -/
theorem stringMap_map (metadata : List (String × String)) :
    stringMap (metadata.map fun kv => (kv.1, Value.str kv.2)) = some metadata := by
  induction metadata with
  | nil => rfl
  | cons kv rest ih => simp [stringMap, asString, ih]

/-- On the data of a declared configuration, once the project opens, every read of
`updateObject` succeeds and the function is the chain of its collaborator steps. -/
theorem updateObject_toData {A : Type} (st : Storage A) (access : A) (cfg : ObjectConfig)
    (hopen : st.openProject access = .ok ()) :
    updateObject st access cfg.toData =
      match selectReader st cfg.source cfg.content cfg.contentBase64 with
      | .error err =>
        ⟨.returned [⟨.error, "Failed to open source file", err⟩], cfg.toData,
          (.openProject access :: (if cfg.source ≠ "" then [.osOpen cfg.source] else []))
            ++ [.closeProject]⟩
      | .ok reader =>
      match st.uploadObject cfg.bucket cfg.key with
      | .error err =>
        ⟨.returned [⟨.error, "Failed to start object upload.", err⟩], cfg.toData,
          (.openProject access :: (if cfg.source ≠ "" then [.osOpen cfg.source] else []))
            ++ [.uploadObject cfg.bucket cfg.key]
            ++ ((if cfg.source ≠ "" then [.fileClose] else []) ++ [.closeProject])⟩
      | .ok _ =>
      match st.setCustomMetadata cfg.metadata with
      | .error err =>
        ⟨.returned [⟨.error, "Failed to set metadata for object.", err⟩], cfg.toData,
          (.openProject access :: (if cfg.source ≠ "" then [.osOpen cfg.source] else []))
            ++ [.uploadObject cfg.bucket cfg.key, .setCustomMetadata cfg.metadata, .abort]
            ++ ((if cfg.source ≠ "" then [.fileClose] else []) ++ [.closeProject])⟩
      | .ok _ =>
      match reader with
      | none =>
        ⟨.panicked, cfg.toData,
          (.openProject access :: (if cfg.source ≠ "" then [.osOpen cfg.source] else []))
            ++ [.uploadObject cfg.bucket cfg.key, .setCustomMetadata cfg.metadata, .abort]
            ++ ((if cfg.source ≠ "" then [.fileClose] else []) ++ [.closeProject])⟩
      | some r =>
      match st.copy r with
      | .error err =>
        ⟨.returned [⟨.error, "Failed to upload object content.", err⟩], cfg.toData,
          (.openProject access :: (if cfg.source ≠ "" then [.osOpen cfg.source] else []))
            ++ [.uploadObject cfg.bucket cfg.key, .setCustomMetadata cfg.metadata, .copy r,
              .abort]
            ++ ((if cfg.source ≠ "" then [.fileClose] else []) ++ [.closeProject])⟩
      | .ok _ =>
      match st.commit with
      | .error err =>
        ⟨.returned [⟨.error, "Failed to commit object upload.", err⟩], cfg.toData,
          (.openProject access :: (if cfg.source ≠ "" then [.osOpen cfg.source] else []))
            ++ [.uploadObject cfg.bucket cfg.key, .setCustomMetadata cfg.metadata, .copy r,
              .commit false, .abort]
            ++ ((if cfg.source ≠ "" then [.fileClose] else []) ++ [.closeProject])⟩
      | .ok _ =>
        ⟨.returned [], cfg.toData.setId cfg.key,
          (.openProject access :: (if cfg.source ≠ "" then [.osOpen cfg.source] else []))
            ++ [.uploadObject cfg.bucket cfg.key, .setCustomMetadata cfg.metadata, .copy r,
              .commit true, .abort]
            ++ ((if cfg.source ≠ "" then [.fileClose] else []) ++ [.closeProject])⟩ := by
  have h1 : asString (cfg.toData.get "bucket") = some cfg.bucket := rfl
  have h2 : asString (cfg.toData.get "key") = some cfg.key := rfl
  have h3 : asString (cfg.toData.get "source") = some cfg.source := rfl
  have h4 : asString (cfg.toData.get "content") = some cfg.content := rfl
  have h5 : asString (cfg.toData.get "content_base64") = some cfg.contentBase64 := rfl
  have h6 : asMap (cfg.toData.get "metadata")
      = some (cfg.metadata.map fun kv => (kv.1, Value.str kv.2)) := rfl
  simp only [updateObject, hopen, h1, h2, h3, h4, h5, h6, Option.bind, stringMap_map]

/-- In every execution of `updateObject` on a declared configuration in which the
upload was opened, a later step that answers an error (setting the metadata, streaming
the content, the commit) makes the function return one Error diagnostic carrying the
step's error, with the upload's abort invoked, no successful commit and no identity
set; the same holds, without a diagnostic, when the function panics on a `nil`
reader.  The identity is set, to the object key, exactly when the commit has
succeeded, and the abort is invoked on that path too. -/
theorem updateObject_abort {A : Type} (st : Storage A) (access : A) (cfg : ObjectConfig)
    (reader : Option Reader)
    (hopen : st.openProject access = .ok ())
    (hreader : selectReader st cfg.source cfg.content cfg.contentBase64 = .ok reader)
    (hupload : st.uploadObject cfg.bucket cfg.key = .ok ()) :
    Call.uploadObject cfg.bucket cfg.key ∈ (updateObject st access cfg.toData).calls
    ∧ Call.abort ∈ (updateObject st access cfg.toData).calls
    ∧ (∀ err, st.setCustomMetadata cfg.metadata = .error err →
        (updateObject st access cfg.toData).exit
            = .returned [⟨.error, "Failed to set metadata for object.", err⟩]
          ∧ (∀ b, Call.commit b ∉ (updateObject st access cfg.toData).calls)
          ∧ (updateObject st access cfg.toData).data.id = none)
    ∧ (∀ r err, st.setCustomMetadata cfg.metadata = .ok () → reader = some r →
        st.copy r = .error err →
        (updateObject st access cfg.toData).exit
            = .returned [⟨.error, "Failed to upload object content.", err⟩]
          ∧ (∀ b, Call.commit b ∉ (updateObject st access cfg.toData).calls)
          ∧ (updateObject st access cfg.toData).data.id = none)
    ∧ (∀ r err, st.setCustomMetadata cfg.metadata = .ok () → reader = some r →
        st.copy r = .ok () → st.commit = .error err →
        (updateObject st access cfg.toData).exit
            = .returned [⟨.error, "Failed to commit object upload.", err⟩]
          ∧ Call.commit true ∉ (updateObject st access cfg.toData).calls
          ∧ (updateObject st access cfg.toData).data.id = none)
    ∧ (st.setCustomMetadata cfg.metadata = .ok () → reader = none →
        (updateObject st access cfg.toData).exit = .panicked
          ∧ (∀ b, Call.commit b ∉ (updateObject st access cfg.toData).calls)
          ∧ (updateObject st access cfg.toData).data.id = none)
    ∧ (∀ r, st.setCustomMetadata cfg.metadata = .ok () → reader = some r →
        st.copy r = .ok () → st.commit = .ok () →
        (updateObject st access cfg.toData).exit = .returned []
          ∧ Call.commit true ∈ (updateObject st access cfg.toData).calls
          ∧ (updateObject st access cfg.toData).data.id = some cfg.key)
    ∧ ((updateObject st access cfg.toData).data.id ≠ none →
        Call.commit true ∈ (updateObject st access cfg.toData).calls
          ∧ (updateObject st access cfg.toData).data.id = some cfg.key) := by
  have e := updateObject_toData st access cfg hopen
  cases hmeta : st.setCustomMetadata cfg.metadata with
  | error err0 =>
    simp only [hreader, hupload, hmeta] at e
    rw [e]
    refine ⟨by simp, by simp, ?_, ?_, ?_, ?_, ?_, ?_⟩
    · intro err herr
      cases herr
      refine ⟨rfl, ?_, rfl⟩
      intro b
      by_cases hs : cfg.source = "" <;> simp [hs]
    · intro r err h
      cases h
    · intro r err h
      cases h
    · intro h
      cases h
    · intro r h
      cases h
    · intro h
      exact absurd rfl h
  | ok u =>
    cases reader with
    | none =>
      simp only [hreader, hupload, hmeta] at e
      rw [e]
      refine ⟨by simp, by simp, ?_, ?_, ?_, ?_, ?_, ?_⟩
      · intro err h
        cases h
      · intro r err _ h
        cases h
      · intro r err _ h
        cases h
      · intro _ _
        refine ⟨rfl, ?_, rfl⟩
        intro b
        by_cases hs : cfg.source = "" <;> simp [hs]
      · intro r _ h
        cases h
      · intro h
        exact absurd rfl h
    | some r0 =>
      cases hcopy : st.copy r0 with
      | error err0 =>
        simp only [hreader, hupload, hmeta, hcopy] at e
        rw [e]
        refine ⟨by simp, by simp, ?_, ?_, ?_, ?_, ?_, ?_⟩
        · intro err h
          cases h
        · intro r err _ hr herr
          cases hr
          rw [hcopy] at herr
          cases herr
          refine ⟨rfl, ?_, rfl⟩
          intro b
          by_cases hs : cfg.source = "" <;> simp [hs]
        · intro r err _ hr h
          cases hr
          rw [hcopy] at h
          cases h
        · intro _ h
          cases h
        · intro r _ hr h
          cases hr
          rw [hcopy] at h
          cases h
        · intro h
          exact absurd rfl h
      | ok u1 =>
        cases hcommit : st.commit with
        | error err0 =>
          simp only [hreader, hupload, hmeta, hcopy, hcommit] at e
          rw [e]
          refine ⟨by simp, by simp, ?_, ?_, ?_, ?_, ?_, ?_⟩
          · intro err h
            cases h
          · intro r err _ hr h
            cases hr
            rw [hcopy] at h
            cases h
          · intro r err _ hr _ herr
            cases hr
            cases herr
            refine ⟨rfl, ?_, rfl⟩
            by_cases hs : cfg.source = "" <;> simp [hs]
          · intro _ h
            cases h
          · intro r _ hr _ h
            cases h
          · intro h
            exact absurd rfl h
        | ok u2 =>
          simp only [hreader, hupload, hmeta, hcopy, hcommit] at e
          rw [e]
          refine ⟨by simp, by simp, ?_, ?_, ?_, ?_, ?_, ?_⟩
          · intro err h
            cases h
          · intro r err _ hr h
            cases hr
            rw [hcopy] at h
            cases h
          · intro r err _ hr _ h
            cases h
          · intro _ h
            cases h
          · intro r _ hr _ _
            exact ⟨rfl, by simp, rfl⟩
          · intro _
            exact ⟨by simp, rfl⟩

/-- A failing commit after the upload was opened: the commit diagnostic, the abort in the
call log and no identity. -/
theorem updateObject_abort_witness :
    (scriptedStorage ⟨[], none⟩ (.ok ()) (.ok ()) (.error "commit refused")).openProject "root"
      = .ok ()
    ∧ selectReader (scriptedStorage ⟨[], none⟩ (.ok ()) (.ok ()) (.error "commit refused"))
        sampleObjectConfig.source sampleObjectConfig.content sampleObjectConfig.contentBase64
      = .ok (some (.text "hello"))
    ∧ (updateObject (scriptedStorage ⟨[], none⟩ (.ok ()) (.ok ()) (.error "commit refused"))
        "root" sampleObjectConfig.toData).exit
      = .returned [⟨.error, "Failed to commit object upload.", "commit refused"⟩]
    ∧ Call.abort ∈ (updateObject (scriptedStorage ⟨[], none⟩ (.ok ()) (.ok ())
        (.error "commit refused")) "root" sampleObjectConfig.toData).calls
    ∧ (updateObject (scriptedStorage ⟨[], none⟩ (.ok ()) (.ok ()) (.error "commit refused"))
        "root" sampleObjectConfig.toData).data.id = none := by
  have h := updateObject_abort (scriptedStorage ⟨[], none⟩ (.ok ()) (.ok ())
    (.error "commit refused")) "root" sampleObjectConfig (some (.text "hello")) rfl rfl rfl
  have hc := h.2.2.2.2.1 (.text "hello") "commit refused" rfl rfl rfl rfl
  exact ⟨rfl, rfl, hc.1, h.2.1, hc.2.2⟩

/-- C9 (code at the failing input): the configuration sets none of `source`, `content`
and `content_base64`, which the declared validation accepts; the `switch` leaves the
reader `nil`, the upload is opened and its metadata set, and the streaming step
`io.Copy(upload, nil)` panics: the deferred abort runs, nothing is committed and no
identity is set, but no error diagnostic is returned. -/
theorem updateObject_nil_reader :
    contentlessObjectConfig.source = "" ∧ contentlessObjectConfig.content = ""
    ∧ contentlessObjectConfig.contentBase64 = ""
    ∧ validateObject contentlessObjectConfig = []
    ∧ selectReader (scriptedStorage ⟨[], none⟩ (.ok ()) (.ok ()) (.ok ()))
        contentlessObjectConfig.source contentlessObjectConfig.content
        contentlessObjectConfig.contentBase64 = .ok none
    ∧ (updateObject (scriptedStorage ⟨[], none⟩ (.ok ()) (.ok ()) (.ok ())) "root"
        contentlessObjectConfig.toData).calls
      = [.openProject "root", .uploadObject "photos" "cat.txt", .setCustomMetadata [],
         .abort, .closeProject]
    ∧ (updateObject (scriptedStorage ⟨[], none⟩ (.ok ()) (.ok ()) (.ok ())) "root"
        contentlessObjectConfig.toData).exit = .panicked
    ∧ (updateObject (scriptedStorage ⟨[], none⟩ (.ok ()) (.ok ()) (.ok ())) "root"
        contentlessObjectConfig.toData).data.id = none :=
  ⟨rfl, rfl, rfl, by decide, rfl, rfl, rfl, rfl⟩

/-- C8 (as stated, refuted): on a configuration whose `source` and `content` are both
non-empty, `updateObject` opens the project, opens the source file, starts and commits
the upload of the file, and sets the identity; it returns no diagnostic. -/
theorem updateObject_source_and_content :
    conflictingObjectConfig.source ≠ "" ∧ conflictingObjectConfig.content ≠ ""
    ∧ (updateObject (scriptedStorage ⟨[], none⟩ (.ok ()) (.ok ()) (.ok ())) "root"
        conflictingObjectConfig.toData).exit = .returned []
    ∧ (updateObject (scriptedStorage ⟨[], none⟩ (.ok ()) (.ok ()) (.ok ())) "root"
        conflictingObjectConfig.toData).calls
      = [.openProject "root", .osOpen "cat.txt", .uploadObject "photos" "cat.txt",
         .setCustomMetadata [], .copy (.file "cat.txt"), .commit true, .abort, .fileClose,
         .closeProject]
    ∧ (updateObject (scriptedStorage ⟨[], none⟩ (.ok ()) (.ok ()) (.ok ())) "root"
        conflictingObjectConfig.toData).data.id = some "cat.txt" :=
  ⟨by decide, by decide, rfl, rfl, rfl⟩

/-- The `ConflictsWith` declarations flag a configuration that sets both `source`
and `content`. -/
theorem validateObject_ne_nil (cfg : ObjectConfig) (hs : cfg.source ≠ "")
    (hc : cfg.content ≠ "") : validateObject cfg ≠ [] := by
  have h1 : cfg.isSet "content" = true := by
    show decide (cfg.content ≠ "") = true
    exact decide_eq_true hc
  have h2 : cfg.isSet "source" = true := by
    show decide (cfg.source ≠ "") = true
    exact decide_eq_true hs
  intro hnil
  simp only [validateObject, List.append_eq_nil, conflictErrors, ObjectSchema,
    List.flatMap_cons, h1, h2, List.find?, if_true] at hnil
  simp at hnil

/-- Every diagnostic of the object validation has severity Error. -/
theorem validateObject_severity (cfg : ObjectConfig) :
    ∀ d ∈ validateObject cfg, d.severity = .error := by
  intro d hd
  simp only [validateObject, conflictErrors, List.mem_append, List.mem_flatMap] at hd
  rcases hd with (hd | hd) | ⟨kf, _, hd⟩
  · exact runValidateFunc_severity _ _ _ d hd
  · exact runValidateFunc_severity _ _ _ d hd
  · split_ifs at hd
    · split at hd <;> simp at hd
      rw [hd]
    · simp at hd

/-- C8 (amended): for every object configuration in which both `source` and `content`
are non-empty, the `ConflictsWith` declarations of `ObjectSchema` make the host's
validation fail, so the validated update returns validation errors without calling
`updateObject`: the project is not opened, no upload is started and no identity is
set.  `updateObject` itself (and `createObject`, which is the same function) makes no
such check: it opens the project and takes the source file whenever `source` is
non-empty, whatever `content` holds. -/
theorem validatedUpdateObject_conflict {A : Type} (st : Storage A) (access : A)
    (cfg : ObjectConfig) (hs : cfg.source ≠ "") (hc : cfg.content ≠ "") :
    (∃ errors, errors ≠ [] ∧ (∀ d ∈ errors, d.severity = .error)
        ∧ (validatedUpdateObject st access cfg).exit = .returned errors)
    ∧ (validatedUpdateObject st access cfg).calls = []
    ∧ (validatedUpdateObject st access cfg).data.id = none
    ∧ createObject st access cfg.toData = updateObject st access cfg.toData
    ∧ Call.openProject access ∈ (updateObject st access cfg.toData).calls
    ∧ (st.osOpen cfg.source = .ok () →
        selectReader st cfg.source cfg.content cfg.contentBase64
          = .ok (some (.file cfg.source))) := by
  have hne := validateObject_ne_nil cfg hs hc
  have hsev := validateObject_severity cfg
  refine ⟨?_, ?_, ?_, rfl, ?_, ?_⟩
  · unfold validatedUpdateObject
    cases hv : validateObject cfg with
    | nil => exact absurd hv hne
    | cons d ds =>
      rw [hv] at hsev
      exact ⟨d :: ds, by simp, hsev, rfl⟩
  · unfold validatedUpdateObject
    cases hv : validateObject cfg with
    | nil => exact absurd hv hne
    | cons d ds => rfl
  · unfold validatedUpdateObject
    cases hv : validateObject cfg with
    | nil => exact absurd hv hne
    | cons d ds => rfl
  · cases hopen : st.openProject access with
    | error err =>
      unfold updateObject
      simp only [hopen]
      simp
    | ok u =>
      rw [updateObject_toData st access cfg hopen]
      repeat' split
      all_goals simp
  · intro hopen
    simp [selectReader, hs, hopen]

/-- The validated update on a configuration setting both `source` and `content`: the two
conflict errors and an empty call log. -/
theorem validatedUpdateObject_conflict_witness :
    conflictingObjectConfig.source ≠ "" ∧ conflictingObjectConfig.content ≠ ""
    ∧ (validatedUpdateObject (scriptedStorage ⟨[], none⟩ (.ok ()) (.ok ()) (.ok ())) "root"
        conflictingObjectConfig).exit
      = .returned [⟨.error, "Conflicting configuration arguments",
            "\"content\": conflicts with source"⟩,
          ⟨.error, "Conflicting configuration arguments",
            "\"source\": conflicts with content"⟩]
    ∧ (validatedUpdateObject (scriptedStorage ⟨[], none⟩ (.ok ()) (.ok ()) (.ok ())) "root"
        conflictingObjectConfig).calls = [] :=
  ⟨by decide, by decide, rfl,
    (validatedUpdateObject_conflict (scriptedStorage ⟨[], none⟩ (.ok ()) (.ok ()) (.ok ()))
      "root" conflictingObjectConfig (by decide) (by decide)).2.1⟩

/-- C11: on every declared configuration whose access grant parses,
`createEdgeCredentials` performs exactly one registration exchange, whatever the
exchange answers: it is addressed to `auth.storjshare.io:7777` when
`auth_service_address` is unset (empty) and to the declared address unchanged
otherwise, and presents the parsed credential and the declared `allow_public_access`
flag.  When the access grant does not parse, no exchange is performed. -/
theorem createEdgeCredentials_one_exchange {A : Type} (up : Uplink A)
    (cfg : EdgeCredentialsConfig) :
    (∀ access, up.parseAccess cfg.accessGrant = .ok access →
        (cfg.authServiceAddress = "" →
          registerArgs (createEdgeCredentials up cfg.toData).calls
            = [("auth.storjshare.io:7777", access, cfg.allowPublicAccess)])
        ∧ (cfg.authServiceAddress ≠ "" →
          registerArgs (createEdgeCredentials up cfg.toData).calls
            = [(cfg.authServiceAddress, access, cfg.allowPublicAccess)]))
    ∧ (∀ err, up.parseAccess cfg.accessGrant = .error err →
        registerArgs (createEdgeCredentials up cfg.toData).calls = []) := by
  have e := createEdgeCredentials_toData up cfg
  refine ⟨?_, ?_⟩
  · intro access hparse
    simp only [hparse] at e
    have hargs : registerArgs (createEdgeCredentials up cfg.toData).calls
        = [(cfg.address, access, cfg.allowPublicAccess)] := by
      rw [e]
      cases hreg : up.registerAccess cfg.address access cfg.allowPublicAccess with
      | error err => rfl
      | ok credentials => rfl
    refine ⟨?_, ?_⟩
    · intro hunset
      rw [hargs]
      simp [EdgeCredentialsConfig.address, hunset]
    · intro hset
      rw [hargs]
      simp [EdgeCredentialsConfig.address, hset]
  · intro err hparse
    simp only [hparse] at e
    rw [e]
    rfl

/-- The sample configurations: the default address for the unset one, the declared
address and flag for the other. -/
theorem createEdgeCredentials_one_exchange_witness :
    sampleUplink.parseAccess sampleEdgeConfig.accessGrant = .ok "root"
    ∧ sampleEdgeConfig.authServiceAddress = ""
    ∧ registerArgs (createEdgeCredentials sampleUplink sampleEdgeConfig.toData).calls
        = [("auth.storjshare.io:7777", "root", false)]
    ∧ addressedEdgeConfig.authServiceAddress ≠ ""
    ∧ registerArgs (createEdgeCredentials unreachableUplink addressedEdgeConfig.toData).calls
        = [("auth.example:7777", "root", true)] :=
  ⟨rfl, rfl,
    ((createEdgeCredentials_one_exchange sampleUplink sampleEdgeConfig).1 "root" rfl).1 rfl,
    by decide,
    ((createEdgeCredentials_one_exchange unreachableUplink addressedEdgeConfig).1 "root"
      rfl).2 (by decide)⟩

end Storj
